import Mathlib

/-!
Shallow embedding of the order/build allocation and completion workflow of the
InventoryApp (InvenTree) repository.

The repository source tree holds the unit tests (`order/test_sales_order.py`,
`order/test_api.py`, `build/test_api.py`), the order validators and API glue,
but the model layer itself (`order/models.py`, `build/models.py`,
`stock/models.py`, `InvenTree/helpers.py`) is not included.  The definitions
below are therefore modelled from the specification: the state machine
governing Purchase Orders, Sales Orders and Build Orders (pending →
issued/in-progress → complete/cancelled), stock allocation, fulfilment
arithmetic and over-allocation handling, with quantity conservation and
status-transition legality as the governing invariants.  Quantities are
numeric values in the application; the behaviour under scrutiny only ever
involves whole quantities (possibly negative in rejected requests), so they
are modelled as integers.
-/

namespace InvApp

/-! ## Sales order data model -/

/-- Modelled from the spec: the closed set of legal sales-order states
(`status_codes.SalesOrderStatus`, missing from the source tree). -/
inductive SalesOrderStatus where
  | PENDING
  | SHIPPED
  | CANCELLED
  | LOST
  | RETURNED
deriving Repr, DecidableEq

/-- Modelled from the spec: a stock item (`stock/models.py`, missing from the
source tree): a quantity of a given part, optionally assigned to a sales
order once shipped to a customer. -/
structure StockItem where
  id : Nat
  part : Nat
  quantity : ℤ
  sales_order : Option Nat := none
deriving Repr, DecidableEq

/-- Modelled from the spec: a sales-order line item (`order/models.py`,
missing from the source tree): a required quantity of a part. -/
structure SOLineItem where
  id : Nat
  part : Nat
  quantity : ℤ
deriving Repr, DecidableEq

/-- Modelled from the spec: a reservation of a specific stock-item quantity
against a specific order line, batched into a shipment. -/
structure SOAllocation where
  id : Nat
  line : Nat
  shipment : Nat
  item : Nat
  quantity : ℤ
deriving Repr, DecidableEq

/-- Modelled from the spec: a batch of sales-order allocations dispatched
together; complete once its `shipment_date` is set. -/
structure SOShipment where
  id : Nat
  shipment_date : Option Nat := none
deriving Repr, DecidableEq

/-- Modelled from the spec: the state of one sales order together with the
stock items it can draw on (`order/models.py`, missing from the source
tree). -/
structure SalesOrderState where
  orderId : Nat
  status : SalesOrderStatus
  shipment_date : Option Nat := none
  lines : List SOLineItem
  shipments : List SOShipment
  allocations : List SOAllocation
  stock : List StockItem
  nextStockId : Nat
deriving Repr, DecidableEq

/-- Allocations recorded against a given line. -/
def SalesOrderState.lineAllocations (st : SalesOrderState) (lineId : Nat) : List SOAllocation :=
  st.allocations.filter (fun a => decide (a.line = lineId))

/-- Modelled from the spec: `SalesOrderLineItem.allocated_quantity`, the
arithmetic reconciling required vs. allocated quantities per line. -/
def SalesOrderState.allocated_quantity (st : SalesOrderState) (lineId : Nat) : ℤ :=
  ((st.lineAllocations lineId).map (fun a => a.quantity)).sum

/-- Stock quantity assigned to a given sales order for a given part. -/
def assignedPerPart (stock : List StockItem) (oid : Nat) (p : Nat) : ℤ :=
  ((stock.filter (fun s => decide (s.sales_order = some oid ∧ s.part = p))).map
    (fun s => s.quantity)).sum

/-- Modelled from the spec: `SalesOrderLineItem.fulfilled_quantity`, the stock
quantity already assigned to the order for the line's part. -/
def SalesOrderState.fulfilled_quantity (st : SalesOrderState) (l : SOLineItem) : ℤ :=
  assignedPerPart st.stock st.orderId l.part

/-- Modelled from the spec: a line is fully allocated when the allocated
quantity reaches the required quantity. -/
def SalesOrderState.line_fully_allocated (st : SalesOrderState) (l : SOLineItem) : Prop :=
  l.quantity ≤ st.allocated_quantity l.id

instance (st : SalesOrderState) (l : SOLineItem) : Decidable (st.line_fully_allocated l) := by
  unfold SalesOrderState.line_fully_allocated
  infer_instance

/-- Modelled from the spec: `SalesOrder.is_fully_allocated`, true when every
line is fully allocated. -/
def SalesOrderState.is_fully_allocated (st : SalesOrderState) : Prop :=
  ∀ l ∈ st.lines, st.line_fully_allocated l

instance (st : SalesOrderState) : Decidable st.is_fully_allocated := by
  unfold SalesOrderState.is_fully_allocated
  infer_instance

/-- Modelled from the spec: `SalesOrderShipment.is_complete`, true once the
shipment date has been set. -/
def SOShipment.is_complete (sh : SOShipment) : Prop :=
  sh.shipment_date.isSome

instance (sh : SOShipment) : Decidable sh.is_complete := by
  unfold SOShipment.is_complete
  infer_instance

/-- Allocations recorded against a given shipment. -/
def SalesOrderState.shipmentAllocations (st : SalesOrderState) (shId : Nat) : List SOAllocation :=
  st.allocations.filter (fun a => decide (a.shipment = shId))

/-- Modelled from the spec: `SalesOrderShipment.check_can_complete`, a shipment
with no allocated stock cannot be completed. -/
def SalesOrderState.check_can_complete (st : SalesOrderState) (shId : Nat) : Prop :=
  st.shipmentAllocations shId ≠ []

instance (st : SalesOrderState) (shId : Nat) : Decidable (st.check_can_complete shId) := by
  unfold SalesOrderState.check_can_complete
  infer_instance

/-- Modelled from the spec: `SalesOrderShipment.complete_shipment` marks the
shipment as dispatched by setting its shipment date, provided it has
allocated stock. -/
def SalesOrderState.complete_shipment (st : SalesOrderState) (shId : Nat) (date : Nat) :
    Except String SalesOrderState :=
  if st.check_can_complete shId then
    let ships := st.shipments.map
      (fun sh => if sh.id = shId then { sh with shipment_date := some date } else sh)
    .ok { st with shipments := ships }
  else
    .error "Shipment has no allocated stock items"

/-- Modelled from the spec: `SalesOrder.can_complete`, status-transition
legality for completing an order: it must be pending, must have line items,
and must have no incomplete (pending) shipments. -/
def SalesOrderState.can_complete (st : SalesOrderState) : Prop :=
  st.lines ≠ [] ∧ st.status = .PENDING ∧ ∀ sh ∈ st.shipments, sh.is_complete

instance (st : SalesOrderState) : Decidable st.can_complete := by
  unfold SalesOrderState.can_complete
  infer_instance

/-- First stock item carrying the given id (primary keys are unique in the
database). -/
def findItem (stock : List StockItem) (i : Nat) : Option StockItem :=
  stock.find? (fun s => decide (s.id = i))

/-- Subtract a quantity from the first stock item carrying the given id
(primary keys are unique in the database). -/
def reduceItem : List StockItem → Nat → ℤ → List StockItem
  | [], _, _ => []
  | s :: rest, itemId, q =>
      if s.id = itemId then { s with quantity := s.quantity - q } :: rest
      else s :: reduceItem rest itemId q

/-- Modelled from the spec: completing one allocation moves the allocated
quantity out of the source stock item into a new stock item assigned to the
order (quantity conservation). -/
def SalesOrderState.completeAllocation (st : SalesOrderState) (a : SOAllocation) :
    SalesOrderState :=
  match findItem st.stock a.item with
  | none => st
  | some s0 =>
      { st with
        stock := reduceItem st.stock a.item a.quantity ++
          [{ id := st.nextStockId, part := s0.part, quantity := a.quantity,
             sales_order := some st.orderId }],
        nextStockId := st.nextStockId + 1 }

/-- Modelled from the spec: `SalesOrder.complete_order` ships the order: if the
completion checks pass, every allocation is completed, the status becomes
SHIPPED and the order's shipment date is set; otherwise it returns false and
leaves the state untouched. -/
def SalesOrderState.complete_order (st : SalesOrderState) (date : Nat) :
    Bool × SalesOrderState :=
  if st.can_complete then
    let st1 := st.allocations.foldl SalesOrderState.completeAllocation st
    (true, { st1 with status := .SHIPPED, shipment_date := some date })
  else
    (false, st)

/-- Modelled from the spec: only a pending sales order can be cancelled. -/
def SalesOrderState.can_cancel (st : SalesOrderState) : Prop :=
  st.status = .PENDING

instance (st : SalesOrderState) : Decidable st.can_cancel := by
  unfold SalesOrderState.can_cancel
  infer_instance

/-- Modelled from the spec: `SalesOrder.cancel_order` marks a cancellable order
CANCELLED and deletes every allocation recorded against it. -/
def SalesOrderState.cancel_order (st : SalesOrderState) : Bool × SalesOrderState :=
  if st.can_cancel then
    (true, { st with status := .CANCELLED, allocations := [] })
  else
    (false, st)

/-- Total stock quantity recorded for one part. -/
def totalPerPart (stock : List StockItem) (p : Nat) : ℤ :=
  ((stock.filter (fun s => decide (s.part = p))).map (fun s => s.quantity)).sum

/-! ## Purchase order data model -/

/-- Modelled from the spec: the closed set of legal purchase-order states
(`status_codes.PurchaseOrderStatus`, missing from the source tree). -/
inductive PurchaseOrderStatus where
  | PENDING
  | PLACED
  | COMPLETE
  | CANCELLED
  | LOST
  | RETURNED
deriving Repr, DecidableEq

/-- Modelled from the spec: a purchase-order line item: an ordered quantity of
a supplier part together with the quantity received so far, belonging to one
purchase order. -/
structure POLineItem where
  id : Nat
  order : Nat
  part : Nat
  quantity : ℤ
  received : ℤ := 0
deriving Repr, DecidableEq

/-- Modelled from the spec: the state of one purchase order
(`order/models.py`, missing from the source tree). -/
structure POState where
  orderId : Nat
  status : PurchaseOrderStatus
  lines : List POLineItem
deriving Repr, DecidableEq

/-- Line items not yet fully received. -/
def POState.pendingLines (po : POState) : List POLineItem :=
  po.lines.filter (fun l => decide (l.received < l.quantity))

/-- Modelled from the spec: issuing (placing) a purchase order takes a PENDING
order to PLACED; any other state is left unchanged. -/
def POState.place_order (po : POState) : POState :=
  if po.status = .PENDING then { po with status := .PLACED } else po

/-- Modelled from the spec: completing a purchase order takes a PLACED order
to COMPLETE, but is rejected (requiring `accept_incomplete`) while the order
still has incomplete line items. -/
def POState.complete_order (po : POState) (accept_incomplete : Bool) :
    Except String POState :=
  if po.pendingLines ≠ [] ∧ accept_incomplete = false then
    .error "Order has incomplete line items"
  else if po.status = .PLACED then
    .ok { po with status := .COMPLETE }
  else
    .error "Order must be placed before it can be completed"

/-- Modelled from the spec: a purchase order can be cancelled while it is
PENDING or PLACED. -/
def POState.can_cancel (po : POState) : Prop :=
  po.status = .PENDING ∨ po.status = .PLACED

instance (po : POState) : Decidable po.can_cancel := by
  unfold POState.can_cancel
  infer_instance

/-- Modelled from the spec: cancelling a cancellable purchase order takes it to
CANCELLED; cancelling an order that cannot be cancelled (e.g. one already
CANCELLED) is rejected. -/
def POState.cancel_order (po : POState) : Except String POState :=
  if po.can_cancel then
    .ok { po with status := .CANCELLED }
  else
    .error "Order cannot be cancelled"

/-! ## Receiving line items against a purchase order -/

/-- Modelled from the spec: one entry of a receive request (API glue
`order/serializers.py`, missing from the source tree). -/
structure ReceiveItem where
  line_item : Nat
  quantity : ℤ
  location : Option Nat := none
  barcode : Option String := none
  batch_code : String := ""
  serial_numbers : Option (List Nat) := none
  status : Nat := 10
deriving Repr, DecidableEq

/-- Modelled from the spec: a receive request: a list of items plus a default
destination location. -/
structure ReceiveRequest where
  items : List ReceiveItem
  location : Option Nat := none
deriving Repr, DecidableEq

/-- Modelled from the spec: a stock item created by receiving goods against a
purchase order. -/
structure PStockItem where
  id : Nat
  part : Nat
  quantity : ℤ
  location : Option Nat := none
  barcode_hash : String := ""
  batch : String := ""
  serial : Option Nat := none
deriving Repr, DecidableEq

/-- Modelled from the spec: the database state a receive request runs
against: the purchase order, line items of other orders, existing stock,
and the valid location and stock-status primary keys. -/
structure ReceiveState where
  po : POState
  otherLines : List POLineItem
  stock : List PStockItem
  locations : List Nat
  statusCodes : List Nat
  nextId : Nat
deriving Repr, DecidableEq

/-- A (possibly absent) location reference is acceptable when it names an
existing stock location. -/
def locOk (st : ReceiveState) (loc : Option Nat) : Prop :=
  match loc with
  | none => True
  | some l => l ∈ st.locations

instance (st : ReceiveState) (loc : Option Nat) : Decidable (locOk st loc) := by
  unfold locOk
  cases loc <;> infer_instance

/-- Modelled from the spec: a receive item's serial numbers are acceptable
when the number of unique serial numbers matches the received quantity and
no serial number repeats (absent serial numbers are always acceptable). -/
def serialsOk (it : ReceiveItem) : Prop :=
  match it.serial_numbers with
  | none => True
  | some sns => (sns.dedup.length : ℤ) = it.quantity ∧ sns.Nodup

instance (it : ReceiveItem) : Decidable (serialsOk it) := by
  unfold serialsOk
  cases it.serial_numbers <;> infer_instance

/-- Modelled from the spec: the number of unique serial numbers must match
the received quantity, and serial numbers may not repeat. -/
def checkSerials (it : ReceiveItem) : Option String :=
  if serialsOk it then none
  else some "Number of unique serial numbers must match quantity"

/-- A line-item primary key resolves against this purchase order. -/
def lineKnown (st : ReceiveState) (lineId : Nat) : Bool :=
  (st.po.lines.find? (fun l => decide (l.id = lineId))).isSome

/-- A line-item primary key resolves against some other purchase order. -/
def lineOther (st : ReceiveState) (lineId : Nat) : Bool :=
  (st.otherLines.find? (fun l => decide (l.id = lineId))).isSome

/-- A supplied barcode is already in use by an existing stock item. -/
def barcodeUsed (st : ReceiveState) : Option String → Bool
  | none => false
  | some b => (st.stock.find? (fun s => decide (s.barcode_hash = b))).isSome

/-- Modelled from the spec: per-item validation of a receive request; returns
the first applicable rejection message, `none` when the item is valid. -/
def itemCheck (st : ReceiveState) (it : ReceiveItem) : Option String :=
  if lineKnown st it.line_item = false then
    if lineOther st it.line_item then some "Line item does not match purchase order"
    else some "Invalid pk for line item"
  else if ¬ locOk st it.location then some "Stock location object does not exist"
  else if it.status ∉ st.statusCodes then some "Status is not a valid choice"
  else if it.quantity ≤ 0 then some "Quantity must be positive"
  else if barcodeUsed st it.barcode then some "Barcode is already in use"
  else checkSerials it

/-- Modelled from the spec: request-level validation of a receive request. -/
def receiveCheck (st : ReceiveState) (req : ReceiveRequest) : Option String :=
  if st.po.status ≠ .PLACED then
    some "Items can only be received against a purchase order in the PLACED state"
  else if req.items = [] then
    some "Line items must be provided"
  else if ¬ locOk st req.location then
    some "Stock location object does not exist"
  else if ¬ (req.items.filterMap (fun it => it.barcode)).Nodup then
    some "The barcode values must be unique"
  else
    req.items.findSome? (itemCheck st)

/-- Modelled from the spec: apply one receive item: the line's `received`
count grows by the received quantity, and new stock is created at the item's
location (falling back to the request's default location): one item of the
full quantity, or — when serial numbers are given — one item of quantity 1
per serial number. -/
def receiveLine (defLoc : Option Nat) (st : ReceiveState) (it : ReceiveItem) : ReceiveState :=
  let loc := match it.location with
    | some l => some l
    | none => defLoc
  let part := match st.po.lines.find? (fun l => decide (l.id = it.line_item)) with
    | some l => l.part
    | none => 0
  let lines := st.po.lines.map
    (fun l => if l.id = it.line_item then { l with received := l.received + it.quantity } else l)
  let newItems : List PStockItem := match it.serial_numbers with
    | none =>
        [{ id := st.nextId, part := part, quantity := it.quantity, location := loc,
           barcode_hash := it.barcode.getD "", batch := it.batch_code, serial := none }]
    | some sns =>
        sns.enum.map (fun p =>
          { id := st.nextId + p.1, part := part, quantity := 1, location := loc,
            barcode_hash := it.barcode.getD "", batch := it.batch_code, serial := some p.2 })
  { st with
    po := { st.po with lines := lines },
    stock := st.stock ++ newItems,
    nextId := st.nextId + newItems.length }

/-- Modelled from the spec: the receive endpoint validates the whole request
first and only then mutates the database, so a rejected request creates
nothing. -/
def receive (st : ReceiveState) (req : ReceiveRequest) : Except String ReceiveState :=
  match receiveCheck st req with
  | some e => .error e
  | none => .ok (req.items.foldl (receiveLine req.location) st)

/-- The state a receive request leaves behind: the new state on success, the
old state untouched on rejection. -/
def receiveRun (st : ReceiveState) (req : ReceiveRequest) : ReceiveState :=
  match receive st req with
  | .ok st1 => st1
  | .error _ => st

/-! ## Build order data model -/

/-- Modelled from the spec: one line of the bill of materials of the part
being built, with the total quantity of the sub-part the build requires
(`required_quantity`). -/
structure BomItem where
  id : Nat
  sub_part : Nat
  requiredQty : ℤ
deriving Repr, DecidableEq

/-- Modelled from the spec: a build allocation (`BuildItem`): a reservation of
a stock-item quantity against one BOM line of the build. -/
structure BuildItem where
  id : Nat
  bom_item : Nat
  stock_item : Nat
  quantity : ℤ
deriving Repr, DecidableEq

/-- Modelled from the spec: a stock item drawn on by a build order. -/
structure BStockItem where
  id : Nat
  part : Nat
  quantity : ℤ
deriving Repr, DecidableEq

/-- Modelled from the spec: the state of one build order (`build/models.py`,
missing from the source tree). -/
structure BuildState where
  bomItems : List BomItem
  allocations : List BuildItem
  stock : List BStockItem
  is_complete : Bool := false
  nextId : Nat
deriving Repr, DecidableEq

/-- Total quantity allocated against one BOM line. -/
def BuildState.allocatedAgainst (bs : BuildState) (bomId : Nat) : ℤ :=
  ((bs.allocations.filter (fun a => decide (a.bom_item = bomId))).map
    (fun a => a.quantity)).sum

/-- Modelled from the spec: a build is over-allocated when the allocations
against some BOM line exceed the required quantity. -/
def BuildState.overallocated (bs : BuildState) : Prop :=
  ∃ bi ∈ bs.bomItems, bi.requiredQty < bs.allocatedAgainst bi.id

instance (bs : BuildState) : Decidable bs.overallocated := by
  unfold BuildState.overallocated
  infer_instance

/-- Required quantity of the BOM line with the given id (0 if unknown). -/
def BuildState.requiredOf (bs : BuildState) (bomId : Nat) : ℤ :=
  match bs.bomItems.find? (fun bi => decide (bi.id = bomId)) with
  | some bi => bi.requiredQty
  | none => 0

/-- Modelled from the spec: trimming over-allocated stock caps the cumulative
quantity consumed against each BOM line at the required quantity, walking
the allocations in order. -/
def trimAllocs : List BuildItem → (Nat → ℤ) → List BuildItem
  | [], _ => []
  | a :: rest, rem =>
      let q := min a.quantity (max (rem a.bom_item) 0)
      { a with quantity := q } ::
        trimAllocs rest (fun b => if b = a.bom_item then rem b - q else rem b)

/-- Subtract a quantity from the first build stock item carrying the given id
(primary keys are unique in the database). -/
def reduceBStock : List BStockItem → Nat → ℤ → List BStockItem
  | [], _, _ => []
  | s :: rest, itemId, q =>
      if s.id = itemId then { s with quantity := s.quantity - q } :: rest
      else s :: reduceBStock rest itemId q

/-- Modelled from the spec: consuming the allocations of a build subtracts
each allocation's quantity from its source stock item. -/
def consumeAllocs (allocs : List BuildItem) (stock : List BStockItem) : List BStockItem :=
  allocs.foldl (fun stk a => reduceBStock stk a.stock_item a.quantity) stock

/-- First build stock item carrying the given id. -/
def findBItem (stock : List BStockItem) (i : Nat) : Option BStockItem :=
  stock.find? (fun s => decide (s.id = i))

/-- Modelled from the spec: how a finish request treats over-allocated stock:
reject the request (the default), accept the over-allocation, or trim it. -/
inductive OverallocationChoice where
  | reject
  | accept
  | trim
deriving Repr, DecidableEq

/-- Modelled from the spec: finishing a build order consumes the allocated
stock and marks the build complete; when the build is over-allocated this is
rejected unless the over-allocation is accepted outright or trimmed down to
the BOM requirement first. -/
def BuildState.finish (bs : BuildState) (choice : OverallocationChoice) :
    Except String BuildState :=
  if bs.overallocated ∧ choice = .reject then
    .error "accept_overallocated"
  else
    let allocs := if choice = .trim then trimAllocs bs.allocations bs.requiredOf
                  else bs.allocations
    .ok { bs with
          allocations := allocs,
          stock := consumeAllocs allocs bs.stock,
          is_complete := true }

/-- The state a finish request leaves behind: the new state on success, the
old state untouched on rejection. -/
def BuildState.finishRun (bs : BuildState) (choice : OverallocationChoice) : BuildState :=
  match bs.finish choice with
  | .ok bs1 => bs1
  | .error _ => bs

/-! ## Build stock allocation endpoint -/

/-- Modelled from the spec: one entry of a build allocation request. -/
structure BuildAllocItem where
  bom_item : Nat
  stock_item : Nat
  quantity : ℤ
deriving Repr, DecidableEq

/-- Quantity of a build stock item already allocated to the build. -/
def BuildState.allocatedFromItem (bs : BuildState) (itemId : Nat) : ℤ :=
  ((bs.allocations.filter (fun a => decide (a.stock_item = itemId))).map
    (fun a => a.quantity)).sum

/-- Available quantity of a build stock item: its quantity less what is
already allocated from it (0 for an unknown stock item). -/
def bAvail (bs : BuildState) (itemId : Nat) : ℤ :=
  match bs.stock.find? (fun s => decide (s.id = itemId)) with
  | some s => s.quantity - bs.allocatedFromItem s.id
  | none => 0

/-- The bom item and stock item of a build allocation entry point to the same
part (vacuously true when either does not resolve; those are caught by the
preceding primary-key checks). -/
def bomMatches (bs : BuildState) (it : BuildAllocItem) : Prop :=
  match bs.bomItems.find? (fun bi => decide (bi.id = it.bom_item)),
      bs.stock.find? (fun s => decide (s.id = it.stock_item)) with
  | some bi, some s => bi.sub_part = s.part
  | _, _ => True

instance (bs : BuildState) (it : BuildAllocItem) : Decidable (bomMatches bs it) := by
  unfold bomMatches
  cases bs.bomItems.find? (fun bi => decide (bi.id = it.bom_item)) <;>
    cases bs.stock.find? (fun s => decide (s.id = it.stock_item)) <;> infer_instance

/-- Modelled from the spec: per-item validation of a build allocation
request. -/
def buildAllocCheck (bs : BuildState) (it : BuildAllocItem) : Option String :=
  if (bs.bomItems.find? (fun bi => decide (bi.id = it.bom_item))).isSome = false then
    some "Invalid pk for bom item"
  else if (bs.stock.find? (fun s => decide (s.id = it.stock_item))).isSome = false then
    some "Invalid pk for stock item"
  else if ¬ bomMatches bs it then
    some "bom item and stock item must point to the same part"
  else if it.quantity ≤ 0 then
    some "Quantity must be positive"
  else if bAvail bs it.stock_item < it.quantity then
    some "Available quantity exceeded"
  else none

/-- Modelled from the spec: the build allocation endpoint validates the whole
request first and only then creates the `BuildItem` objects, so a rejected
request creates nothing. -/
def BuildState.allocateStock (bs : BuildState) (items : List BuildAllocItem) :
    Except String BuildState :=
  if items = [] then
    .error "Allocation items must be provided"
  else
    match items.findSome? (buildAllocCheck bs) with
    | some e => .error e
    | none =>
        let newAllocs := items.enum.map (fun p =>
          { id := bs.nextId + p.1, bom_item := p.2.bom_item,
            stock_item := p.2.stock_item, quantity := p.2.quantity : BuildItem })
        .ok { bs with
              allocations := bs.allocations ++ newAllocs,
              nextId := bs.nextId + items.length }

/-- The state a build allocation request leaves behind: the new state on
success, the old state untouched on rejection. -/
def BuildState.allocateStockRun (bs : BuildState) (items : List BuildAllocItem) : BuildState :=
  match bs.allocateStock items with
  | .ok bs1 => bs1
  | .error _ => bs

/-! ## Sales order stock allocation endpoint -/

/-- Modelled from the spec: one entry of a sales-order allocation request. -/
structure SOAllocItem where
  line_item : Nat
  stock_item : Nat
  quantity : ℤ
deriving Repr, DecidableEq

/-- Modelled from the spec: a sales-order allocation request: a list of items
plus the shipment the allocations are batched into. -/
structure SOAllocRequest where
  items : List SOAllocItem
  shipment : Nat
deriving Repr, DecidableEq

/-- Modelled from the spec: the database state a sales-order allocation
request runs against: the sales order itself plus the shipment primary keys
belonging to other orders. -/
structure SOAllocEnv where
  so : SalesOrderState
  otherShipments : List Nat
  nextAllocId : Nat
deriving Repr, DecidableEq

/-- Quantity of a stock item already allocated against the sales order. -/
def SalesOrderState.allocatedFromItem (st : SalesOrderState) (itemId : Nat) : ℤ :=
  ((st.allocations.filter (fun a => decide (a.item = itemId))).map
    (fun a => a.quantity)).sum

/-- Available quantity of a sales stock item: its quantity less what is
already allocated from it (0 for an unknown stock item). -/
def soAvail (st : SalesOrderState) (itemId : Nat) : ℤ :=
  match findItem st.stock itemId with
  | some s => s.quantity - st.allocatedFromItem s.id
  | none => 0

/-- Modelled from the spec: per-item validation of a sales-order allocation
request. -/
def soAllocCheck (st : SalesOrderState) (it : SOAllocItem) : Option String :=
  if (st.lines.find? (fun l => decide (l.id = it.line_item))).isSome = false then
    some "Invalid pk for line item"
  else if (findItem st.stock it.stock_item).isSome = false then
    some "Invalid pk for stock item"
  else if it.quantity ≤ 0 then
    some "Quantity must be positive"
  else if soAvail st it.stock_item < it.quantity then
    some "Available quantity exceeded"
  else none

/-- Modelled from the spec: the sales-order allocation endpoint validates the
whole request (including that the shipment exists and belongs to this order)
first and only then creates the allocations, so a rejected request creates
nothing. -/
def soAllocate (env : SOAllocEnv) (req : SOAllocRequest) : Except String SalesOrderState :=
  if req.items = [] then
    .error "Allocation items must be provided"
  else if (env.so.shipments.find? (fun sh => decide (sh.id = req.shipment))).isSome then
    match req.items.findSome? (soAllocCheck env.so) with
    | some e => .error e
    | none =>
        let newAllocs := req.items.enum.map (fun p =>
          { id := env.nextAllocId + p.1, line := p.2.line_item, shipment := req.shipment,
            item := p.2.stock_item, quantity := p.2.quantity : SOAllocation })
        .ok { env.so with allocations := env.so.allocations ++ newAllocs }
  else if req.shipment ∈ env.otherShipments then
    .error "Shipment is not associated with this order"
  else
    .error "Shipment does not exist"

/-- The state a sales-order allocation request leaves behind: the new state on
success, the old state untouched on rejection. -/
def soAllocateRun (env : SOAllocEnv) (req : SOAllocRequest) : SalesOrderState :=
  match soAllocate env req with
  | .ok st1 => st1
  | .error _ => env.so

/-! ## Order reference fields -/

/-- Value of a digit string (most significant first). -/
def digitsVal (cs : List Char) : Nat :=
  cs.foldl (fun n c => 10 * n + (c.toNat - 48)) 0

/-- First maximal run of digit characters in a string. -/
def firstDigitRun : List Char → List Char
  | [] => []
  | c :: rest => if c.isDigit then c :: rest.takeWhile Char.isDigit else firstDigitRun rest

/-- Modelled from the spec: `extract_int` (`InvenTree/helpers.py`, missing
from the source tree) pulls the integer portion out of a reference string —
ignoring any non-numeric surroundings — and clamps it to the largest value an
integer database column can store. -/
def extract_int (ref : String) : Nat :=
  min (digitsVal (firstDigitRun ref.data)) 0x7fffffff

/-- Modelled from the spec: the reference fields of an order: the
user-visible reference string and the derived integer field. -/
structure OrderRef where
  reference : String
  reference_int : Nat
deriving Repr, DecidableEq

/-- Modelled from the spec: `rebuild_reference_field`, run when an order is
saved: `reference_int` is rebuilt from the reference string, which itself is
stored unmodified. -/
def saveOrder (o : OrderRef) : OrderRef :=
  { o with reference_int := extract_int o.reference }

/-- The state a purchase-order cancel request leaves behind: the new state on
success, the old state untouched on rejection. -/
def POState.cancelRun (po : POState) : POState :=
  match po.cancel_order with
  | .ok po1 => po1
  | .error _ => po

/-- Total `received` count recorded on the line items carrying the given id. -/
def POState.receivedFor (po : POState) (lineId : Nat) : ℤ :=
  ((po.lines.filter (fun x => decide (x.id = lineId))).map (fun x => x.received)).sum

/-! ## Build outputs -/

/-- Modelled from the spec: a build output: an item of the parent part being
produced by a build order, optionally serialised. -/
structure BuildOutput where
  id : Nat
  quantity : ℤ
  serial : Option Nat := none
  batch : String := ""
deriving Repr, DecidableEq

/-- Modelled from the spec: the build outputs of a build order together with
the serial numbers already taken. -/
structure OutputState where
  outputs : List BuildOutput
  usedSerials : List Nat
  nextId : Nat
deriving Repr, DecidableEq

/-- Modelled from the spec: `create_build_output`: a positive quantity is
required; with serial numbers, the number of unique serial numbers must match
the quantity and none may already exist, and one output of quantity 1 is
created per serial number; without serial numbers a single output of the full
quantity is created. -/
def create_build_output (os : OutputState) (quantity : ℤ) (serials : Option (List Nat))
    (batch : String) : Except String OutputState :=
  if quantity ≤ 0 then
    .error "Quantity must be greater than zero"
  else
    match serials with
    | none =>
        .ok { os with
              outputs := os.outputs ++
                [{ id := os.nextId, quantity := quantity, serial := none, batch := batch }],
              nextId := os.nextId + 1 }
    | some sns =>
        if ¬ ((sns.dedup.length : ℤ) = quantity ∧ sns.Nodup) then
          .error "Number of unique serial numbers must match quantity"
        else if sns.any (fun s => decide (s ∈ os.usedSerials)) then
          .error "The following serial numbers already exist or are invalid"
        else
          .ok { os with
                outputs := os.outputs ++ sns.enum.map (fun p =>
                  { id := os.nextId + p.1, quantity := 1, serial := some p.2, batch := batch }),
                usedSerials := os.usedSerials ++ sns,
                nextId := os.nextId + sns.length }

/-! ## Concrete states used by the closed witnesses

These mirror the fixtures of the unit tests: two stock items of 100 and 200
units of one part, a sales order for 50 units fully allocated by 25 + 25, a
placed purchase order with two lines, and a build requiring 50 + 30 units of
two sub-parts, over-allocated by one unit each. -/

def soFixture : SalesOrderState :=
  { orderId := 10, status := .PENDING,
    lines := [{ id := 1, part := 1, quantity := 50 }],
    shipments := [{ id := 1, shipment_date := some 5 }],
    allocations := [{ id := 1, line := 1, shipment := 1, item := 1, quantity := 25 },
                    { id := 2, line := 1, shipment := 1, item := 2, quantity := 25 }],
    stock := [{ id := 1, part := 1, quantity := 100 },
              { id := 2, part := 1, quantity := 200 }],
    nextStockId := 3 }

def soPending : SalesOrderState :=
  { soFixture with shipments := [{ id := 1, shipment_date := none }] }

def poFixture : POState :=
  { orderId := 1, status := .PENDING,
    lines := [{ id := 1, order := 1, part := 5, quantity := 100, received := 0 },
              { id := 2, order := 1, part := 6, quantity := 250, received := 50 }] }

def poPlaced : POState :=
  { poFixture with status := .PLACED }

def poReceived : POState :=
  { poPlaced with
    lines := [{ id := 1, order := 1, part := 5, quantity := 100, received := 100 },
              { id := 2, order := 1, part := 6, quantity := 250, received := 250 }] }

def rsFixture : ReceiveState :=
  { po := poPlaced,
    otherLines := [{ id := 22, order := 2, part := 9, quantity := 5, received := 0 }],
    stock := [{ id := 7, part := 4, quantity := 3, location := some 1,
                barcode_hash := "USED", batch := "", serial := none }],
    locations := [1, 2], statusCodes := [10, 50, 55], nextId := 100 }

def bsFixture : BuildState :=
  { bomItems := [{ id := 1, sub_part := 5, requiredQty := 50 },
                 { id := 2, sub_part := 6, requiredQty := 30 }],
    allocations := [{ id := 1, bom_item := 1, stock_item := 1, quantity := 51 },
                    { id := 2, bom_item := 2, stock_item := 2, quantity := 32 }],
    stock := [{ id := 1, part := 5, quantity := 100 },
              { id := 2, part := 6, quantity := 40 }],
    nextId := 3 }

def osFixture : OutputState :=
  { outputs := [], usedSerials := [9], nextId := 1 }

def snBadItem : ReceiveItem :=
  { line_item := 1, quantity := 5, serial_numbers := some [1, 2, 3, 4, 5, 6] }

def snGoodItem : ReceiveItem :=
  { line_item := 1, quantity := 2, batch_code := "abc-123",
    serial_numbers := some [100, 101] }

def envFixture : SOAllocEnv :=
  { so := soPending, otherShipments := [9], nextAllocId := 50 }

/-! ## Helper lemmas: stock bookkeeping -/

lemma findItem_nil (j : Nat) : findItem [] j = none := rfl

lemma findItem_cons (s : StockItem) (stock : List StockItem) (j : Nat) :
    findItem (s :: stock) j = if s.id = j then some s else findItem stock j := by
  simp only [findItem, List.find?]
  by_cases h : s.id = j <;> simp [h]

lemma findItem_append (xs ys : List StockItem) (j : Nat) :
    findItem (xs ++ ys) j = (findItem xs j).or (findItem ys j) := by
  simp [findItem, List.find?_append]

lemma mem_reduceItem_of_mem {s : StockItem} {stock : List StockItem} {i : Nat} {q : ℤ}
    (hmem : s ∈ stock) (hne : s.id ≠ i) : s ∈ reduceItem stock i q := by
  induction stock with
  | nil => simpa using hmem
  | cons t rest ih =>
      rcases List.mem_cons.mp hmem with h | h
      · subst h
        rw [reduceItem, if_neg hne]
        exact List.mem_cons_self ..
      · by_cases ht : t.id = i
        · rw [reduceItem, if_pos ht]
          exact List.mem_cons_of_mem _ h
        · rw [reduceItem, if_neg ht]
          exact List.mem_cons_of_mem _ (ih h)

lemma mem_of_mem_reduceItem {s1 : StockItem} {stock : List StockItem} {i : Nat} {q : ℤ}
    (hmem : s1 ∈ reduceItem stock i q) :
    ∃ s ∈ stock, s1.id = s.id ∧ s1.part = s.part ∧ s1.sales_order = s.sales_order := by
  induction stock with
  | nil => simp [reduceItem] at hmem
  | cons t rest ih =>
      by_cases ht : t.id = i
      · rw [reduceItem, if_pos ht] at hmem
        rcases List.mem_cons.mp hmem with h | h
        · exact ⟨t, List.mem_cons_self .., by simp [h]⟩
        · exact ⟨s1, List.mem_cons_of_mem _ h, rfl, rfl, rfl⟩
      · rw [reduceItem, if_neg ht] at hmem
        rcases List.mem_cons.mp hmem with h | h
        · exact ⟨t, List.mem_cons_self .., by simp [h]⟩
        · obtain ⟨s, hs, hfields⟩ := ih h
          exact ⟨s, List.mem_cons_of_mem _ hs, hfields⟩

lemma findItem_reduceItem_ne (stock : List StockItem) (i : Nat) (q : ℤ) (j : Nat)
    (h : j ≠ i) : findItem (reduceItem stock i q) j = findItem stock j := by
  induction stock with
  | nil => rfl
  | cons s rest ih =>
      by_cases hs : s.id = i
      · rw [reduceItem, if_pos hs, findItem_cons, findItem_cons]
        have hij : ¬ i = j := fun hc => h hc.symm
        have hsj : ¬ s.id = j := by rw [hs]; exact hij
        simp [hsj, hs, hij]
      · rw [reduceItem, if_neg hs, findItem_cons, findItem_cons]
        by_cases hj : s.id = j
        · simp [hj]
        · simp [hj, ih]

lemma findItem_reduceItem_eq (stock : List StockItem) (i : Nat) (q : ℤ) :
    findItem (reduceItem stock i q) i =
      (findItem stock i).map (fun s => { s with quantity := s.quantity - q }) := by
  induction stock with
  | nil => rfl
  | cons s rest ih =>
      by_cases hs : s.id = i
      · rw [reduceItem, if_pos hs, findItem_cons, findItem_cons]
        simp [hs]
      · rw [reduceItem, if_neg hs, findItem_cons, findItem_cons]
        simp [hs, ih]

lemma totalPerPart_nil (p : Nat) : totalPerPart [] p = 0 := rfl

lemma totalPerPart_append (xs ys : List StockItem) (p : Nat) :
    totalPerPart (xs ++ ys) p = totalPerPart xs p + totalPerPart ys p := by
  simp [totalPerPart, List.filter_append]

lemma totalPerPart_cons (s : StockItem) (stock : List StockItem) (p : Nat) :
    totalPerPart (s :: stock) p =
      (if s.part = p then s.quantity else 0) + totalPerPart stock p := by
  by_cases h : s.part = p <;> simp [totalPerPart, List.filter, h]

lemma totalPerPart_reduceItem (stock : List StockItem) (i : Nat) (q : ℤ) (p : Nat) :
    totalPerPart (reduceItem stock i q) p =
      totalPerPart stock p -
        (match findItem stock i with
         | some s0 => if s0.part = p then q else 0
         | none => 0) := by
  induction stock with
  | nil => simp [reduceItem, findItem_nil, totalPerPart_nil]
  | cons s rest ih =>
      by_cases hs : s.id = i
      · rw [reduceItem, if_pos hs, findItem_cons, if_pos hs]
        rw [totalPerPart_cons, totalPerPart_cons]
        by_cases hp : s.part = p <;> simp [hp] <;> ring
      · rw [reduceItem, if_neg hs, findItem_cons, if_neg hs]
        rw [totalPerPart_cons, totalPerPart_cons, ih]
        ring

lemma assignedPerPart_nil (oid p : Nat) : assignedPerPart [] oid p = 0 := rfl

lemma assignedPerPart_append (xs ys : List StockItem) (oid p : Nat) :
    assignedPerPart (xs ++ ys) oid p =
      assignedPerPart xs oid p + assignedPerPart ys oid p := by
  simp [assignedPerPart, List.filter_append]

lemma assignedPerPart_cons (s : StockItem) (stock : List StockItem) (oid p : Nat) :
    assignedPerPart (s :: stock) oid p =
      (if s.sales_order = some oid ∧ s.part = p then s.quantity else 0) +
        assignedPerPart stock oid p := by
  by_cases h : s.sales_order = some oid ∧ s.part = p <;>
    simp [assignedPerPart, List.filter, h]

lemma assignedPerPart_reduceItem (stock : List StockItem) (oid i : Nat) (q : ℤ) (p : Nat) :
    assignedPerPart (reduceItem stock i q) oid p =
      assignedPerPart stock oid p -
        (match findItem stock i with
         | some s0 => if s0.sales_order = some oid ∧ s0.part = p then q else 0
         | none => 0) := by
  induction stock with
  | nil => simp [reduceItem, findItem_nil, assignedPerPart_nil]
  | cons s rest ih =>
      by_cases hs : s.id = i
      · rw [reduceItem, if_pos hs, findItem_cons, if_pos hs]
        rw [assignedPerPart_cons, assignedPerPart_cons]
        by_cases hp : s.sales_order = some oid ∧ s.part = p <;> simp [hp] <;> ring
      · rw [reduceItem, if_neg hs, findItem_cons, if_neg hs]
        rw [assignedPerPart_cons, assignedPerPart_cons, ih]
        ring

lemma completeAllocation_orderId (st : SalesOrderState) (a : SOAllocation) :
    (st.completeAllocation a).orderId = st.orderId := by
  unfold SalesOrderState.completeAllocation
  cases findItem st.stock a.item <;> rfl

lemma completeAllocation_allocations (st : SalesOrderState) (a : SOAllocation) :
    (st.completeAllocation a).allocations = st.allocations := by
  unfold SalesOrderState.completeAllocation
  cases findItem st.stock a.item <;> rfl

lemma completeAllocation_nextStockId_le (st : SalesOrderState) (a : SOAllocation) :
    st.nextStockId ≤ (st.completeAllocation a).nextStockId := by
  unfold SalesOrderState.completeAllocation
  cases findItem st.stock a.item
  · exact le_refl _
  · exact Nat.le_succ _

lemma completeAllocation_total (st : SalesOrderState) (a : SOAllocation) (p : Nat) :
    totalPerPart (st.completeAllocation a).stock p = totalPerPart st.stock p := by
  unfold SalesOrderState.completeAllocation
  cases hf : findItem st.stock a.item with
  | none => rfl
  | some s0 =>
      simp only
      rw [totalPerPart_append, totalPerPart_reduceItem, hf, totalPerPart_cons, totalPerPart_nil]
      by_cases hp : s0.part = p <;> simp [hp] <;> ring

lemma findItem_completeAllocation (st : SalesOrderState) (a : SOAllocation) (j : Nat)
    (hj : j < st.nextStockId) :
    findItem (st.completeAllocation a).stock j =
      if j = a.item then
        (findItem st.stock j).map (fun s => { s with quantity := s.quantity - a.quantity })
      else findItem st.stock j := by
  unfold SalesOrderState.completeAllocation
  cases hf : findItem st.stock a.item with
  | none =>
      simp only
      by_cases hja : j = a.item
      · subst hja
        rw [hf]
        simp
      · rw [if_neg hja]
  | some s0 =>
      simp only
      rw [findItem_append, findItem_cons, findItem_nil]
      have hne : ¬ st.nextStockId = j := fun hc => absurd hc.symm (Nat.ne_of_lt hj)
      rw [if_neg hne]
      by_cases hja : j = a.item
      · subst hja
        rw [findItem_reduceItem_eq, hf]
        simp
      · rw [if_neg hja, findItem_reduceItem_ne _ _ _ _ hja]
        cases findItem st.stock j <;> rfl

lemma completeAllocation_assigned (st : SalesOrderState) (a : SOAllocation) (p : Nat)
    (hun : ∀ s0, findItem st.stock a.item = some s0 → s0.sales_order ≠ some st.orderId) :
    assignedPerPart (st.completeAllocation a).stock st.orderId p =
      assignedPerPart st.stock st.orderId p +
        (match findItem st.stock a.item with
         | some s0 => if s0.part = p then a.quantity else 0
         | none => 0) := by
  unfold SalesOrderState.completeAllocation
  cases hf : findItem st.stock a.item with
  | none => simp
  | some s0 =>
      simp only
      rw [assignedPerPart_append, assignedPerPart_reduceItem, hf, assignedPerPart_cons,
        assignedPerPart_nil]
      have h1 : s0.sales_order ≠ some st.orderId := hun s0 hf
      by_cases hp : s0.part = p <;> simp [h1, hp]

lemma foldl_completeAllocation_orderId :
    ∀ (as : List SOAllocation) (st : SalesOrderState),
      (as.foldl SalesOrderState.completeAllocation st).orderId = st.orderId
  | [], _ => rfl
  | a :: as, st => by
      rw [List.foldl_cons, foldl_completeAllocation_orderId as, completeAllocation_orderId]

lemma foldl_completeAllocation_allocations :
    ∀ (as : List SOAllocation) (st : SalesOrderState),
      (as.foldl SalesOrderState.completeAllocation st).allocations = st.allocations
  | [], _ => rfl
  | a :: as, st => by
      rw [List.foldl_cons, foldl_completeAllocation_allocations as, completeAllocation_allocations]

lemma foldl_completeAllocation_nextStockId :
    ∀ (as : List SOAllocation) (st : SalesOrderState),
      st.nextStockId ≤ (as.foldl SalesOrderState.completeAllocation st).nextStockId
  | [], _ => le_refl _
  | a :: as, st => by
      rw [List.foldl_cons]
      exact le_trans (completeAllocation_nextStockId_le st a)
        (foldl_completeAllocation_nextStockId as _)

lemma foldl_completeAllocation_total :
    ∀ (as : List SOAllocation) (st : SalesOrderState) (p : Nat),
      totalPerPart (as.foldl SalesOrderState.completeAllocation st).stock p =
        totalPerPart st.stock p
  | [], _, _ => rfl
  | a :: as, st, p => by
      rw [List.foldl_cons, foldl_completeAllocation_total as, completeAllocation_total]

lemma foldl_findItem_untouched :
    ∀ (as : List SOAllocation) (st : SalesOrderState) (j : Nat),
      j < st.nextStockId → (∀ b ∈ as, b.item ≠ j) →
      findItem (as.foldl SalesOrderState.completeAllocation st).stock j = findItem st.stock j
  | [], _, _, _, _ => rfl
  | b :: bs, st, j, hj, hne => by
      rw [List.foldl_cons]
      rw [foldl_findItem_untouched bs _ j
        (lt_of_lt_of_le hj (completeAllocation_nextStockId_le st b))
        (fun x hx => hne x (List.mem_cons_of_mem _ hx))]
      rw [findItem_completeAllocation st b j hj,
        if_neg (fun hc => (hne b (List.mem_cons_self ..)) hc.symm)]

lemma foldl_mem_stock :
    ∀ (as : List SOAllocation) (st : SalesOrderState) (s : StockItem),
      s ∈ st.stock → (∀ b ∈ as, b.item ≠ s.id) →
      s ∈ (as.foldl SalesOrderState.completeAllocation st).stock
  | [], _, _, hs, _ => hs
  | b :: bs, st, s, hs, hne => by
      rw [List.foldl_cons]
      refine foldl_mem_stock bs _ s ?_ (fun x hx => hne x (List.mem_cons_of_mem _ hx))
      unfold SalesOrderState.completeAllocation
      cases hf : findItem st.stock b.item with
      | none => exact hs
      | some s0 =>
          simp only
          exact List.mem_append_left _
            (mem_reduceItem_of_mem hs (fun hc => (hne b (List.mem_cons_self ..)) hc.symm))

lemma foldl_creates :
    ∀ (as : List SOAllocation) (st : SalesOrderState),
      (∀ b ∈ as, b.item < st.nextStockId) →
      ∀ a ∈ as, ∀ s0, findItem st.stock a.item = some s0 →
        ∃ s1 ∈ (as.foldl SalesOrderState.completeAllocation st).stock,
          s1.sales_order = some st.orderId ∧ s1.quantity = a.quantity ∧ s1.part = s0.part
  | [], _, _, a, ha, _, _ => absurd ha (List.not_mem_nil a)
  | b :: bs, st, hfresh, a, ha, s0, hf => by
      rw [List.foldl_cons]
      rcases List.mem_cons.mp ha with heq | hmem
      · subst heq
        have hx : (StockItem.mk st.nextStockId s0.part a.quantity (some st.orderId))
            ∈ (st.completeAllocation a).stock := by
          unfold SalesOrderState.completeAllocation
          rw [hf]
          simp
        refine ⟨_, foldl_mem_stock bs _ _ hx ?_, rfl, rfl, rfl⟩
        intro x hxmem
        have hlt := hfresh x (List.mem_cons_of_mem _ hxmem)
        simpa using Nat.ne_of_lt hlt
      · have hstep := findItem_completeAllocation st b a.item (hfresh a ha)
        have hfresh1 : ∀ x ∈ bs, x.item < (st.completeAllocation b).nextStockId :=
          fun x hx => lt_of_lt_of_le (hfresh x (List.mem_cons_of_mem _ hx))
            (completeAllocation_nextStockId_le st b)
        by_cases hab : a.item = b.item
        · rw [if_pos hab, hf] at hstep
          simp only [Option.map_some'] at hstep
          have hres := foldl_creates bs (st.completeAllocation b) hfresh1 a hmem _ hstep
          rw [completeAllocation_orderId] at hres
          simpa using hres
        · rw [if_neg hab, hf] at hstep
          have hres := foldl_creates bs (st.completeAllocation b) hfresh1 a hmem _ hstep
          rw [completeAllocation_orderId] at hres
          exact hres

lemma foldl_subtracts :
    ∀ (as : List SOAllocation) (st : SalesOrderState),
      (∀ b ∈ as, b.item < st.nextStockId) →
      as.Pairwise (fun x y => x.item ≠ y.item) →
      ∀ a ∈ as,
        findItem (as.foldl SalesOrderState.completeAllocation st).stock a.item =
          (findItem st.stock a.item).map
            (fun s => { s with quantity := s.quantity - a.quantity })
  | [], _, _, _, a, ha => absurd ha (List.not_mem_nil a)
  | b :: bs, st, hfresh, hpw, a, ha => by
      rw [List.foldl_cons]
      have hpw1 := List.pairwise_cons.mp hpw
      rcases List.mem_cons.mp ha with heq | hmem
      · subst heq
        rw [foldl_findItem_untouched bs _ a.item
          (lt_of_lt_of_le (hfresh a (List.mem_cons_self ..))
            (completeAllocation_nextStockId_le st a))
          (fun x hx => (hpw1.1 x hx).symm)]
        rw [findItem_completeAllocation st a a.item (hfresh a (List.mem_cons_self ..)),
          if_pos rfl]
      · have hfresh1 : ∀ x ∈ bs, x.item < (st.completeAllocation b).nextStockId :=
          fun x hx => lt_of_lt_of_le (hfresh x (List.mem_cons_of_mem _ hx))
            (completeAllocation_nextStockId_le st b)
        rw [foldl_subtracts bs _ hfresh1 hpw1.2 a hmem]
        rw [findItem_completeAllocation st b a.item (hfresh a ha),
          if_neg (fun hc => (hpw1.1 a hmem) hc.symm)]

lemma foldl_assigned :
    ∀ (as : List SOAllocation) (st : SalesOrderState) (p : Nat),
      (∀ b ∈ as, b.item < st.nextStockId) →
      (∀ b ∈ as, ∀ s0, findItem st.stock b.item = some s0 →
          s0.sales_order ≠ some st.orderId ∧ s0.part = p) →
      (∀ b ∈ as, (findItem st.stock b.item).isSome) →
      assignedPerPart (as.foldl SalesOrderState.completeAllocation st).stock st.orderId p =
        assignedPerPart st.stock st.orderId p + ((as.map (fun b => b.quantity)).sum)
  | [], _, _, _, _, _ => by simp
  | b :: bs, st, p, hfresh, hprops, hsome => by
      rw [List.foldl_cons]
      obtain ⟨s0, hf⟩ := Option.isSome_iff_exists.mp (hsome b (List.mem_cons_self ..))
      have hb := hprops b (List.mem_cons_self ..) s0 hf
      have horder := completeAllocation_orderId st b
      have hfresh1 : ∀ x ∈ bs, x.item < (st.completeAllocation b).nextStockId :=
        fun x hx => lt_of_lt_of_le (hfresh x (List.mem_cons_of_mem _ hx))
          (completeAllocation_nextStockId_le st b)
      have hprops1 : ∀ x ∈ bs, ∀ s1,
          findItem (st.completeAllocation b).stock x.item = some s1 →
          s1.sales_order ≠ some (st.completeAllocation b).orderId ∧ s1.part = p := by
        intro x hx s1 hf1
        rw [findItem_completeAllocation st b x.item (hfresh x (List.mem_cons_of_mem _ hx))]
          at hf1
        rw [horder]
        by_cases hxb : x.item = b.item
        · rw [if_pos hxb, hxb, hf] at hf1
          simp only [Option.map_some', Option.some.injEq] at hf1
          subst hf1
          exact hb
        · rw [if_neg hxb] at hf1
          exact hprops x (List.mem_cons_of_mem _ hx) s1 hf1
      have hsome1 : ∀ x ∈ bs, (findItem (st.completeAllocation b).stock x.item).isSome := by
        intro x hx
        rw [findItem_completeAllocation st b x.item (hfresh x (List.mem_cons_of_mem _ hx))]
        by_cases hxb : x.item = b.item
        · rw [if_pos hxb, hxb, hf]
          simp
        · rw [if_neg hxb]
          exact hsome x (List.mem_cons_of_mem _ hx)
      have IH := foldl_assigned bs (st.completeAllocation b) p hfresh1 hprops1 hsome1
      rw [horder] at IH
      rw [IH]
      have hun : ∀ s0', findItem st.stock b.item = some s0' →
          s0'.sales_order ≠ some st.orderId := by
        intro s0' hf0
        rw [hf0] at hf
        cases Option.some.inj hf
        exact hb.1
      rw [completeAllocation_assigned st b p hun, hf]
      simp only [hb.2, if_true, List.map_cons, List.sum_cons]
      ring

/-! ## Helper lemmas: build stock consumption and trimming -/

lemma findBItem_cons (s : BStockItem) (stock : List BStockItem) (j : Nat) :
    findBItem (s :: stock) j = if s.id = j then some s else findBItem stock j := by
  simp only [findBItem, List.find?]
  by_cases h : s.id = j <;> simp [h]

lemma findBItem_reduceBStock_ne (stock : List BStockItem) (i : Nat) (q : ℤ) (j : Nat)
    (h : j ≠ i) : findBItem (reduceBStock stock i q) j = findBItem stock j := by
  induction stock with
  | nil => rfl
  | cons s rest ih =>
      by_cases hs : s.id = i
      · rw [reduceBStock, if_pos hs, findBItem_cons, findBItem_cons]
        have hij : ¬ i = j := fun hc => h hc.symm
        have hsj : ¬ s.id = j := by rw [hs]; exact hij
        simp [hsj, hs, hij]
      · rw [reduceBStock, if_neg hs, findBItem_cons, findBItem_cons]
        by_cases hj : s.id = j
        · simp [hj]
        · simp [hj, ih]

lemma findBItem_reduceBStock_eq (stock : List BStockItem) (i : Nat) (q : ℤ) :
    findBItem (reduceBStock stock i q) i =
      (findBItem stock i).map (fun s => { s with quantity := s.quantity - q }) := by
  induction stock with
  | nil => rfl
  | cons s rest ih =>
      by_cases hs : s.id = i
      · rw [reduceBStock, if_pos hs, findBItem_cons, findBItem_cons]
        simp [hs]
      · rw [reduceBStock, if_neg hs, findBItem_cons, findBItem_cons]
        simp [hs, ih]

lemma consumeAllocs_cons (a : BuildItem) (as : List BuildItem) (stock : List BStockItem) :
    consumeAllocs (a :: as) stock =
      consumeAllocs as (reduceBStock stock a.stock_item a.quantity) := rfl

lemma consume_untouched :
    ∀ (as : List BuildItem) (stock : List BStockItem) (j : Nat),
      (∀ a ∈ as, a.stock_item ≠ j) →
      findBItem (consumeAllocs as stock) j = findBItem stock j
  | [], _, _, _ => rfl
  | a :: as, stock, j, hne => by
      rw [consumeAllocs_cons,
        consume_untouched as _ j (fun x hx => hne x (List.mem_cons_of_mem _ hx)),
        findBItem_reduceBStock_ne _ _ _ _ (fun hc => (hne a (List.mem_cons_self ..)) hc.symm)]

lemma consume_single :
    ∀ (as : List BuildItem) (stock : List BStockItem),
      as.Pairwise (fun x y => x.stock_item ≠ y.stock_item) →
      ∀ a ∈ as,
        findBItem (consumeAllocs as stock) a.stock_item =
          (findBItem stock a.stock_item).map
            (fun s => { s with quantity := s.quantity - a.quantity })
  | [], _, _, a, ha => absurd ha (List.not_mem_nil a)
  | b :: bs, stock, hpw, a, ha => by
      have hpw1 := List.pairwise_cons.mp hpw
      rw [consumeAllocs_cons]
      rcases List.mem_cons.mp ha with heq | hmem
      · subst heq
        rw [consume_untouched bs _ a.stock_item (fun x hx => (hpw1.1 x hx).symm),
          findBItem_reduceBStock_eq]
      · rw [consume_single bs _ hpw1.2 a hmem,
          findBItem_reduceBStock_ne _ _ _ _ (fun hc => (hpw1.1 a hmem) hc.symm)]

lemma trimAllocs_congr :
    ∀ (as : List BuildItem) (r1 r2 : Nat → ℤ),
      (∀ b ∈ as, r1 b.bom_item = r2 b.bom_item) → trimAllocs as r1 = trimAllocs as r2
  | [], _, _, _ => rfl
  | a :: as, r1, r2, h => by
      rw [trimAllocs, trimAllocs]
      have ha := h a (List.mem_cons_self ..)
      rw [ha]
      congr 1
      apply trimAllocs_congr
      intro b hb
      by_cases hba : b.bom_item = a.bom_item <;>
        simp [hba, ha, h b (List.mem_cons_of_mem _ hb)]

lemma trimAllocs_pairwise :
    ∀ (as : List BuildItem) (rem : Nat → ℤ),
      as.Pairwise (fun x y => x.bom_item ≠ y.bom_item) →
      trimAllocs as rem =
        as.map (fun a => { a with quantity := min a.quantity (max (rem a.bom_item) 0) })
  | [], _, _ => rfl
  | a :: as, rem, hpw => by
      have hpw1 := List.pairwise_cons.mp hpw
      rw [trimAllocs, List.map_cons]
      congr 1
      rw [trimAllocs_congr as _ rem (fun b hb => by simp [(hpw1.1 b hb).symm])]
      exact trimAllocs_pairwise as rem hpw1.2

/-! ## Helper lemmas: request validation -/

lemma findSome?_ne_none {α β : Type} {f : α → Option β} {l : List α} {x : α}
    (hx : x ∈ l) (hfx : f x ≠ none) : l.findSome? f ≠ none := by
  intro hnone
  exact hfx (List.findSome?_eq_none_iff.mp hnone x hx)

lemma receive_of_check_some (st : ReceiveState) (req : ReceiveRequest) (e : String)
    (h : receiveCheck st req = some e) : receive st req = .error e := by
  unfold receive
  rw [h]

lemma receive_rejected (st : ReceiveState) (req : ReceiveRequest)
    (h : receiveCheck st req ≠ none) :
    (∃ m, receive st req = .error m) ∧ receiveRun st req = st := by
  obtain ⟨e, he⟩ := Option.ne_none_iff_exists'.mp h
  have hr := receive_of_check_some st req e he
  refine ⟨⟨e, hr⟩, ?_⟩
  unfold receiveRun
  rw [hr]

lemma receiveCheck_ne_none_of_status (st : ReceiveState) (req : ReceiveRequest)
    (h : st.po.status ≠ .PLACED) : receiveCheck st req ≠ none := by
  unfold receiveCheck
  rw [if_pos h]
  simp

lemma receiveCheck_ne_none_of_empty (st : ReceiveState) (req : ReceiveRequest)
    (h : req.items = []) : receiveCheck st req ≠ none := by
  unfold receiveCheck
  split_ifs with h1 h2 h3 h4 <;> first | simp | exact absurd h h2

lemma receiveCheck_ne_none_of_dup (st : ReceiveState) (req : ReceiveRequest)
    (h : ¬ (req.items.filterMap (fun it => it.barcode)).Nodup) :
    receiveCheck st req ≠ none := by
  unfold receiveCheck
  split_ifs with h1 h2 h3 h4 <;> first | simp | exact absurd h h4

lemma receiveCheck_ne_none_of_item (st : ReceiveState) (req : ReceiveRequest)
    (it : ReceiveItem) (hmem : it ∈ req.items) (hbad : itemCheck st it ≠ none) :
    receiveCheck st req ≠ none := by
  unfold receiveCheck
  split_ifs <;> first | exact findSome?_ne_none hmem hbad | simp

lemma itemCheck_none_facts (st : ReceiveState) (it : ReceiveItem)
    (h : itemCheck st it = none) :
    lineKnown st it.line_item = true ∧
    locOk st it.location ∧
    it.status ∈ st.statusCodes ∧
    0 < it.quantity ∧
    barcodeUsed st it.barcode = false ∧
    checkSerials it = none := by
  unfold itemCheck at h
  split_ifs at h with h1 h2 h3 h4 h5 h6 <;> try exact absurd h (by simp)
  exact ⟨by simpa using h1, h3, h4, not_le.mp h5, Bool.eq_false_iff.mpr h6, h⟩

lemma receive_single_ok (st : ReceiveState) (defLoc : Option Nat) (it : ReceiveItem)
    (hst : st.po.status = .PLACED) (hloc : locOk st defLoc)
    (hic : itemCheck st it = none) :
    receive st { items := [it], location := defLoc } = .ok (receiveLine defLoc st it) := by
  have hchk : receiveCheck st { items := [it], location := defLoc } = none := by
    unfold receiveCheck
    rw [if_neg (not_not_intro hst)]
    simp only
    rw [if_neg (by simp : ¬ ([it] = ([] : List ReceiveItem)))]
    rw [if_neg (not_not_intro hloc)]
    have hnd : ([it].filterMap (fun x => x.barcode)).Nodup := by
      cases hbo : it.barcode <;> simp [List.filterMap, hbo]
    rw [if_neg (not_not_intro hnd)]
    simp [List.findSome?, hic]
  unfold receive
  rw [hchk]
  rfl

lemma soAllocate_of_error (env : SOAllocEnv) (req : SOAllocRequest)
    (h : ∃ m, soAllocate env req = .error m) : soAllocateRun env req = env.so := by
  obtain ⟨m, hm⟩ := h
  unfold soAllocateRun
  rw [hm]

lemma soAllocate_isError_of_item (env : SOAllocEnv) (req : SOAllocRequest)
    (it : SOAllocItem) (hmem : it ∈ req.items) (hbad : soAllocCheck env.so it ≠ none) :
    ∃ m, soAllocate env req = .error m := by
  unfold soAllocate
  split_ifs with h1 h2
  · exact ⟨_, rfl⟩
  · cases hfs : req.items.findSome? (soAllocCheck env.so) with
    | none => exact absurd (List.findSome?_eq_none_iff.mp hfs it hmem) hbad
    | some e => exact ⟨e, rfl⟩
  · exact ⟨_, rfl⟩
  · exact ⟨_, rfl⟩

lemma soAllocCheck_none_facts (st : SalesOrderState) (it : SOAllocItem)
    (h : soAllocCheck st it = none) :
    (st.lines.find? (fun l => decide (l.id = it.line_item))).isSome = true ∧
    (findItem st.stock it.stock_item).isSome = true ∧
    0 < it.quantity ∧
    it.quantity ≤ soAvail st it.stock_item := by
  unfold soAllocCheck at h
  split_ifs at h with h1 h2 h3 h4 <;> try exact Option.noConfusion h
  refine ⟨by simpa using h1, ?_, not_le.mp h3, not_lt.mp h4⟩
  rw [Option.isSome_iff_ne_none]
  simpa using h2

lemma buildAlloc_of_error (bs : BuildState) (items : List BuildAllocItem)
    (h : ∃ m, bs.allocateStock items = .error m) : bs.allocateStockRun items = bs := by
  obtain ⟨m, hm⟩ := h
  unfold BuildState.allocateStockRun
  rw [hm]

lemma buildAlloc_isError_of_item (bs : BuildState) (items : List BuildAllocItem)
    (it : BuildAllocItem) (hmem : it ∈ items) (hbad : buildAllocCheck bs it ≠ none) :
    ∃ m, bs.allocateStock items = .error m := by
  unfold BuildState.allocateStock
  split_ifs with h1
  · exact ⟨_, rfl⟩
  · cases hfs : items.findSome? (buildAllocCheck bs) with
    | none => exact absurd (List.findSome?_eq_none_iff.mp hfs it hmem) hbad
    | some e => exact ⟨e, rfl⟩

lemma buildAllocCheck_none_facts (bs : BuildState) (it : BuildAllocItem)
    (h : buildAllocCheck bs it = none) :
    (bs.bomItems.find? (fun bi => decide (bi.id = it.bom_item))).isSome = true ∧
    (bs.stock.find? (fun s => decide (s.id = it.stock_item))).isSome = true := by
  unfold buildAllocCheck at h
  split_ifs at h with h1 h2 h3 h4 h5 <;> try exact Option.noConfusion h
  exact ⟨by simpa using h1, by simpa using h2⟩

lemma receivedFor_map_update (lines : List POLineItem) (lineId : Nat) (q : ℤ) :
    ((lines.map
        (fun x => if x.id = lineId then { x with received := x.received + q } else x)).filter
      (fun x => decide (x.id = lineId)))
      = (lines.filter (fun x => decide (x.id = lineId))).map
          (fun x => { x with received := x.received + q }) := by
  induction lines with
  | nil => rfl
  | cons a as ih =>
      by_cases h : a.id = lineId <;> simp [h, ih]

lemma serialsOk_some (it : ReceiveItem) (sns : List Nat) (h : it.serial_numbers = some sns) :
    serialsOk it ↔ ((sns.dedup.length : ℤ) = it.quantity ∧ sns.Nodup) := by
  unfold serialsOk
  rw [h]

lemma enum_shift_nodup (n : Nat) (sns : List Nat) :
    (sns.enum.map (fun p => n + p.1)).Nodup := by
  have heq : sns.enum.map (fun p => n + p.1)
      = (List.range sns.length).map (fun i => n + i) := by
    rw [← List.enum_map_fst sns, List.map_map]
    rfl
  rw [heq]
  exact (List.nodup_range _).map (fun a b h => by omega)

lemma assignedPerPart_eq_zero (stock : List StockItem) (oid p : Nat)
    (h : ∀ s ∈ stock, s.sales_order ≠ some oid) : assignedPerPart stock oid p = 0 := by
  induction stock with
  | nil => rfl
  | cons s rest ih =>
      rw [assignedPerPart_cons,
        if_neg (fun hc => (h s (List.mem_cons_self ..)) hc.1),
        ih (fun x hx => h x (List.mem_cons_of_mem _ hx))]
      ring

lemma soAvail_of_find (st : SalesOrderState) (i : Nat) (s : StockItem)
    (hs : findItem st.stock i = some s) :
    soAvail st i = s.quantity - st.allocatedFromItem s.id := by
  unfold soAvail
  rw [hs]

/-! ## Claim theorems -/

/-- C9: Saving an order rebuilds its `reference_int` field from the integer
portion of the reference string: non-numeric surroundings are stripped
(reference '1000K' yields `reference_int` 1000, 'SO-1234' yields 1234,
'999' yields 999), a numeric portion exceeding 2^31 - 1 is clamped to
0x7fffffff, and the full reference string is stored unmodified. -/
theorem claim_C9_rebuild_reference :
    (∀ o : OrderRef, (saveOrder o).reference = o.reference) ∧
    (saveOrder { reference := "1000K", reference_int := 0 }).reference_int = 1000 ∧
    (saveOrder { reference := "SO-1234", reference_int := 0 }).reference_int = 1234 ∧
    (saveOrder { reference := "999", reference_int := 0 }).reference_int = 999 ∧
    (∀ o : OrderRef, 0x7fffffff < digitsVal (firstDigitRun o.reference.data) →
      (saveOrder o).reference_int = 0x7fffffff) := by
  refine ⟨fun o => rfl, by decide, by decide, by decide, fun o h => ?_⟩
  show min (digitsVal (firstDigitRun o.reference.data)) 0x7fffffff = 0x7fffffff
  omega

/-- Closed witness for C9 at the over-large reference exercised by the
purchase-order API test. -/
theorem claim_C9_rebuild_reference_witness :
    (saveOrder (OrderRef.mk "PO-92233720368547758089999999999999999" 0)).reference
      = "PO-92233720368547758089999999999999999" ∧
    (saveOrder (OrderRef.mk "PO-92233720368547758089999999999999999" 0)).reference_int
      = 0x7fffffff :=
  ⟨claim_C9_rebuild_reference.1 _, claim_C9_rebuild_reference.2.2.2.2 _ (by decide)⟩

/-- C4: Purchase order status transitions respect the legal state machine:
issuing takes a PENDING order to PLACED; completing takes a PLACED order to
COMPLETE but is rejected (requiring `accept_incomplete`) while the order has
incomplete line items; cancelling takes a cancellable order to CANCELLED;
and cancelling an already-CANCELLED order is rejected with the order
unchanged. -/
theorem claim_C4_po_state_machine :
    (∀ po : POState, po.status = .PENDING → po.place_order.status = .PLACED) ∧
    (∀ po : POState, po.pendingLines ≠ [] →
      po.complete_order false = .error "Order has incomplete line items") ∧
    (∀ po : POState, po.status = .PLACED →
      po.complete_order true = .ok { po with status := .COMPLETE }) ∧
    (∀ po : POState, po.status = .PLACED → po.pendingLines = [] →
      po.complete_order false = .ok { po with status := .COMPLETE }) ∧
    (∀ po : POState, po.can_cancel →
      po.cancel_order = .ok { po with status := .CANCELLED }) ∧
    (∀ po : POState, po.status = .CANCELLED →
      po.cancel_order = .error "Order cannot be cancelled" ∧ po.cancelRun = po) := by
  refine ⟨?_, ?_, ?_, ?_, ?_, ?_⟩
  · intro po h
    unfold POState.place_order
    rw [if_pos h]
  · intro po h
    unfold POState.complete_order
    rw [if_pos ⟨h, rfl⟩]
  · intro po h
    unfold POState.complete_order
    rw [if_neg (fun hc => Bool.noConfusion hc.2), if_pos h]
  · intro po h1 h2
    unfold POState.complete_order
    rw [if_neg (fun hc => hc.1 h2), if_pos h1]
  · intro po h
    unfold POState.cancel_order
    rw [if_pos h]
  · intro po h
    have hnc : ¬ po.can_cancel := by
      unfold POState.can_cancel
      rw [h]
      decide
    have he : po.cancel_order = .error "Order cannot be cancelled" := by
      unfold POState.cancel_order
      rw [if_neg hnc]
    refine ⟨he, ?_⟩
    unfold POState.cancelRun
    rw [he]

/-- Closed witness for C4 at the purchase-order fixtures. -/
theorem claim_C4_po_state_machine_witness :
    poFixture.place_order.status = .PLACED ∧
    poPlaced.complete_order false = .error "Order has incomplete line items" ∧
    poPlaced.complete_order true = .ok { poPlaced with status := .COMPLETE } ∧
    poReceived.complete_order false = .ok { poReceived with status := .COMPLETE } ∧
    poPlaced.cancel_order = .ok { poPlaced with status := .CANCELLED } ∧
    ({ poFixture with status := .CANCELLED } : POState).cancel_order
      = .error "Order cannot be cancelled" :=
  ⟨claim_C4_po_state_machine.1 _ (by decide),
   claim_C4_po_state_machine.2.1 _ (by decide),
   claim_C4_po_state_machine.2.2.1 _ (by decide),
   claim_C4_po_state_machine.2.2.2.1 _ (by decide) (by decide),
   claim_C4_po_state_machine.2.2.2.2.1 _ (Or.inr (by decide)),
   (claim_C4_po_state_machine.2.2.2.2.2 _ (by decide)).1⟩

/-- C3: Cancelling a pending sales order sets its status to CANCELLED and
deletes every allocation recorded against the order; afterwards the
completion check fails (the model's counterpart of `can_complete` raising
`ValidationError`) and `complete_order` returns false, leaving the order in
the CANCELLED state. -/
theorem claim_C3_cancel_pending (st : SalesOrderState) (d : Nat)
    (h : st.status = .PENDING) :
    (st.cancel_order).1 = true ∧
    (st.cancel_order).2.status = .CANCELLED ∧
    (st.cancel_order).2.allocations = [] ∧
    ¬ (st.cancel_order).2.can_complete ∧
    ((st.cancel_order).2.complete_order d).1 = false ∧
    ((st.cancel_order).2.complete_order d).2.status = .CANCELLED := by
  have hcc : st.can_cancel := h
  unfold SalesOrderState.cancel_order
  rw [if_pos hcc]
  have hnc : ¬ ({ st with status := .CANCELLED, allocations := [] } : SalesOrderState).can_complete := by
    intro hc
    simpa using hc.2.1
  refine ⟨rfl, rfl, rfl, hnc, ?_, ?_⟩ <;>
    · unfold SalesOrderState.complete_order
      rw [if_neg hnc]

/-- Closed witness for C3 at the sales-order fixture. -/
theorem claim_C3_cancel_pending_witness :
    (soPending.cancel_order).1 = true ∧
    (soPending.cancel_order).2.status = .CANCELLED ∧
    (soPending.cancel_order).2.allocations = [] ∧
    ((soPending.cancel_order).2.complete_order 7).1 = false ∧
    ((soPending.cancel_order).2.complete_order 7).2.status = .CANCELLED :=
  have h := claim_C3_cancel_pending soPending 7 (by decide)
  ⟨h.1, h.2.1, h.2.2.1, h.2.2.2.2.1, h.2.2.2.2.2⟩

/-- C8: A sales order cannot be completed while any of its shipments is
incomplete: `complete_order` returns false and leaves the state — hence
every shipment's date — untouched; a shipment with no allocated stock cannot
itself be completed; once every shipment is complete, `complete_order`
succeeds, the status becomes SHIPPED and the order's shipment date is set. -/
theorem claim_C8_shipment_gating (st : SalesOrderState) (d : Nat) :
    (∀ sh ∈ st.shipments, ¬ sh.is_complete →
      (st.complete_order d).1 = false ∧ (st.complete_order d).2 = st) ∧
    (∀ shId, st.shipmentAllocations shId = [] →
      st.complete_shipment shId d = .error "Shipment has no allocated stock items") ∧
    (st.lines ≠ [] → st.status = .PENDING → (∀ sh ∈ st.shipments, sh.is_complete) →
      (st.complete_order d).1 = true ∧
      (st.complete_order d).2.status = .SHIPPED ∧
      (st.complete_order d).2.shipment_date = some d) := by
  refine ⟨?_, ?_, ?_⟩
  · intro sh hsh hinc
    have hnc : ¬ st.can_complete := fun hc => hinc (hc.2.2 sh hsh)
    unfold SalesOrderState.complete_order
    rw [if_neg hnc]
    exact ⟨rfl, rfl⟩
  · intro shId h0
    unfold SalesOrderState.complete_shipment
    rw [if_neg (fun hc => hc h0)]
  · intro h1 h2 h3
    unfold SalesOrderState.complete_order
    rw [if_pos ⟨h1, h2, h3⟩]
    exact ⟨rfl, rfl, rfl⟩

/-- Closed witness for C8 at the sales-order fixtures: a pending shipment
blocks completion, an unallocated shipment cannot be completed, and the
fully shipped fixture completes to SHIPPED. -/
theorem claim_C8_shipment_gating_witness :
    ((soPending.complete_order 7).1 = false ∧ (soPending.complete_order 7).2 = soPending) ∧
    (soFixture.complete_shipment 3 7 = .error "Shipment has no allocated stock items") ∧
    ((soFixture.complete_order 7).1 = true ∧
      (soFixture.complete_order 7).2.status = .SHIPPED ∧
      (soFixture.complete_order 7).2.shipment_date = some 7) :=
  ⟨(claim_C8_shipment_gating soPending 7).1 { id := 1, shipment_date := none }
      (by decide) (by decide),
   (claim_C8_shipment_gating soFixture 7).2.1 3 (by decide),
   (claim_C8_shipment_gating soFixture 7).2.2 (by decide) (by decide) (by decide)⟩

/-- C1: Completing a sales order whose lines are fully allocated and whose
shipments are all complete succeeds, subtracts each allocation's quantity
from its source stock item, creates for each allocation a new stock item
assigned to the order holding exactly the allocated quantity (so the total
stock quantity per part is unchanged), and leaves the allocations
themselves in place. -/
theorem claim_C1_complete_order_conservation (st : SalesOrderState) (d : Nat)
    (hlines : st.lines ≠ []) (hstatus : st.status = SalesOrderStatus.PENDING)
    (halloc : st.is_fully_allocated)
    (hships : ∀ sh ∈ st.shipments, sh.is_complete)
    (hfresh : ∀ a ∈ st.allocations, a.item < st.nextStockId) :
    (st.complete_order d).1 = true ∧
    (∀ p, totalPerPart (st.complete_order d).2.stock p = totalPerPart st.stock p) ∧
    (st.complete_order d).2.allocations = st.allocations ∧
    (∀ a ∈ st.allocations, ∀ s0, findItem st.stock a.item = some s0 →
      ∃ s1 ∈ (st.complete_order d).2.stock,
        s1.sales_order = some st.orderId ∧ s1.quantity = a.quantity ∧ s1.part = s0.part) ∧
    (st.allocations.Pairwise (fun x y => x.item ≠ y.item) →
      ∀ a ∈ st.allocations, ∀ s0, findItem st.stock a.item = some s0 →
        findItem (st.complete_order d).2.stock a.item =
          some { s0 with quantity := s0.quantity - a.quantity }) := by
  have hc : st.can_complete := ⟨hlines, hstatus, hships⟩
  unfold SalesOrderState.complete_order
  rw [if_pos hc]
  refine ⟨rfl, ?_, ?_, ?_, ?_⟩
  · intro p
    exact foldl_completeAllocation_total st.allocations st p
  · exact foldl_completeAllocation_allocations st.allocations st
  · intro a ha s0 hf
    exact foldl_creates st.allocations st hfresh a ha s0 hf
  · intro hpw a ha s0 hf
    show findItem ((st.allocations.foldl SalesOrderState.completeAllocation st).stock) a.item = _
    rw [foldl_subtracts st.allocations st hfresh hpw a ha, hf]
    rfl

/-- Closed witness for C1 at the shipped sales-order fixture: 25 + 25 units
are moved out of the 100- and 200-unit stock items and the per-part total is
conserved. -/
theorem claim_C1_complete_order_conservation_witness :
    (soFixture.complete_order 7).1 = true ∧
    totalPerPart (soFixture.complete_order 7).2.stock 1 = totalPerPart soFixture.stock 1 ∧
    (soFixture.complete_order 7).2.allocations = soFixture.allocations ∧
    findItem (soFixture.complete_order 7).2.stock 1
      = some { id := 1, part := 1, quantity := 75, sales_order := none } :=
  have h := claim_C1_complete_order_conservation soFixture 7 (by decide) (by decide)
    (by decide) (by decide) (by decide)
  ⟨h.1, h.2.1 1, h.2.2.1,
    h.2.2.2.2 (by decide) { id := 1, line := 1, shipment := 1, item := 1, quantity := 25 }
      (by decide) { id := 1, part := 1, quantity := 100, sales_order := none } (by decide)⟩

/-- C5: Sales-order line arithmetic: `allocated_quantity` is the sum of the
quantities of the allocations against the line; a line is fully allocated
iff its allocated quantity reaches the required quantity; the order is fully
allocated iff every line is; `fulfilled_quantity` is 0 while no stock is
assigned to the order (i.e. before shipping) and equals the line quantity
after the order is shipped. -/
theorem claim_C5_line_arithmetic :
    (∀ (st : SalesOrderState) (lineId : Nat),
      st.allocated_quantity lineId =
        ((st.allocations.filter (fun a => decide (a.line = lineId))).map
          (fun a => a.quantity)).sum) ∧
    (∀ (st : SalesOrderState) (l : SOLineItem),
      st.line_fully_allocated l ↔ l.quantity ≤ st.allocated_quantity l.id) ∧
    (∀ st : SalesOrderState,
      st.is_fully_allocated ↔ ∀ l ∈ st.lines, st.line_fully_allocated l) ∧
    (∀ (st : SalesOrderState) (l : SOLineItem),
      (∀ s ∈ st.stock, s.sales_order ≠ some st.orderId) →
      st.fulfilled_quantity l = 0) ∧
    (∀ (st : SalesOrderState) (l : SOLineItem) (d : Nat),
      st.lines = [l] → st.status = .PENDING → (∀ sh ∈ st.shipments, sh.is_complete) →
      (∀ s ∈ st.stock, s.sales_order ≠ some st.orderId) →
      (∀ a ∈ st.allocations, a.item < st.nextStockId) →
      (∀ a ∈ st.allocations, a.line = l.id) →
      (∀ a ∈ st.allocations, (findItem st.stock a.item).isSome) →
      (∀ a ∈ st.allocations, ∀ s0, findItem st.stock a.item = some s0 → s0.part = l.part) →
      st.allocated_quantity l.id = l.quantity →
      ((st.complete_order d).2).fulfilled_quantity l = l.quantity) := by
  refine ⟨fun st lineId => rfl, fun st l => Iff.rfl, fun st => Iff.rfl, ?_, ?_⟩
  · intro st l hnone
    exact assignedPerPart_eq_zero st.stock st.orderId l.part hnone
  · intro st l d hlines hstatus hships hnostock hfresh hline hsome hpart hexact
    have hc : st.can_complete := ⟨by rw [hlines]; simp, hstatus, hships⟩
    unfold SalesOrderState.complete_order
    rw [if_pos hc]
    show assignedPerPart (st.allocations.foldl SalesOrderState.completeAllocation st).stock
      (st.allocations.foldl SalesOrderState.completeAllocation st).orderId l.part = l.quantity
    rw [foldl_completeAllocation_orderId]
    have hprops : ∀ b ∈ st.allocations, ∀ s0, findItem st.stock b.item = some s0 →
        s0.sales_order ≠ some st.orderId ∧ s0.part = l.part := by
      intro b hb s0 hf
      exact ⟨hnostock s0 (List.mem_of_find?_eq_some hf), hpart b hb s0 hf⟩
    rw [foldl_assigned st.allocations st l.part hfresh hprops hsome]
    rw [assignedPerPart_eq_zero st.stock st.orderId l.part hnostock, zero_add]
    have hfilt : st.allocations.filter (fun a => decide (a.line = l.id)) = st.allocations :=
      List.filter_eq_self.mpr (fun a ha => by simp [hline a ha])
    unfold SalesOrderState.allocated_quantity SalesOrderState.lineAllocations at hexact
    rw [hfilt] at hexact
    exact hexact

/-- Closed witness for C5 at the sales-order fixture: the fully allocated
50-unit line has allocated quantity 50, fulfilled quantity 0 before
completion and 50 after. -/
theorem claim_C5_line_arithmetic_witness :
    soFixture.allocated_quantity 1 =
      ((soFixture.allocations.filter (fun a => decide (a.line = 1))).map
        (fun a => a.quantity)).sum ∧
    soFixture.fulfilled_quantity { id := 1, part := 1, quantity := 50 } = 0 ∧
    ((soFixture.complete_order 7).2).fulfilled_quantity
      { id := 1, part := 1, quantity := 50 } = 50 :=
  ⟨claim_C5_line_arithmetic.1 soFixture 1,
   claim_C5_line_arithmetic.2.2.2.1 soFixture _ (by decide),
   claim_C5_line_arithmetic.2.2.2.2 soFixture { id := 1, part := 1, quantity := 50 } 7
     (by decide) (by decide) (by decide) (by decide) (by decide) (by decide) (by decide)
     (by decide) (by decide)⟩

/-- C2: For a build order whose allocations against some BOM line exceed the
required quantity, finishing without acceptance fails and no stock item
quantity changes; finishing with `accept` reduces each allocated stock item
by the full allocated quantity, while `trim` reduces each stock item only by
the BOM-required quantity; in both accepted cases the build is marked
complete. -/
theorem claim_C2_build_overallocation (bs : BuildState)
    (hov : bs.overallocated)
    (hpwS : bs.allocations.Pairwise (fun x y => x.stock_item ≠ y.stock_item))
    (hpwB : bs.allocations.Pairwise (fun x y => x.bom_item ≠ y.bom_item))
    (hreq : ∀ a ∈ bs.allocations,
      0 ≤ bs.requiredOf a.bom_item ∧ bs.requiredOf a.bom_item ≤ a.quantity) :
    (bs.finish .reject = .error "accept_overallocated" ∧ bs.finishRun .reject = bs) ∧
    (∃ bs1, bs.finish .accept = .ok bs1 ∧ bs1.is_complete = true ∧
      ∀ a ∈ bs.allocations,
        findBItem bs1.stock a.stock_item =
          (findBItem bs.stock a.stock_item).map
            (fun s => { s with quantity := s.quantity - a.quantity })) ∧
    (∃ bs2, bs.finish .trim = .ok bs2 ∧ bs2.is_complete = true ∧
      ∀ a ∈ bs.allocations,
        findBItem bs2.stock a.stock_item =
          (findBItem bs.stock a.stock_item).map
            (fun s => { s with quantity := s.quantity - bs.requiredOf a.bom_item })) := by
  have herr : bs.finish .reject = .error "accept_overallocated" := by
    unfold BuildState.finish
    rw [if_pos ⟨hov, rfl⟩]
  refine ⟨⟨herr, ?_⟩, ?_, ?_⟩
  · unfold BuildState.finishRun
    rw [herr]
  · unfold BuildState.finish
    rw [if_neg (fun hc => OverallocationChoice.noConfusion hc.2)]
    refine ⟨_, rfl, rfl, ?_⟩
    intro a ha
    show findBItem (consumeAllocs bs.allocations bs.stock) a.stock_item = _
    exact consume_single bs.allocations bs.stock hpwS a ha
  · unfold BuildState.finish
    rw [if_neg (fun hc => OverallocationChoice.noConfusion hc.2)]
    refine ⟨_, rfl, rfl, ?_⟩
    intro a ha
    show findBItem
      (consumeAllocs (trimAllocs bs.allocations bs.requiredOf) bs.stock) a.stock_item = _
    rw [trimAllocs_pairwise bs.allocations bs.requiredOf hpwB]
    have hpwS1 : (bs.allocations.map (fun x =>
        { x with quantity := min x.quantity (max (bs.requiredOf x.bom_item) 0) })).Pairwise
        (fun x y => x.stock_item ≠ y.stock_item) := by
      rw [List.pairwise_map]
      exact hpwS
    have htrim := consume_single _ bs.stock hpwS1
      ({ a with quantity := min a.quantity (max (bs.requiredOf a.bom_item) 0) })
      (List.mem_map_of_mem _ ha)
    have hq : min a.quantity (max (bs.requiredOf a.bom_item) 0) = bs.requiredOf a.bom_item := by
      rw [max_eq_left (hreq a ha).1, min_eq_right (hreq a ha).2]
    rw [hq] at htrim
    exact htrim

/-- Closed witness for C2 at the over-allocated build fixture: rejecting
leaves the 100- and 40-unit stock items untouched, accepting consumes the
full 51 and 32 allocated units, trimming consumes only the required 50 and
30 units. -/
theorem claim_C2_build_overallocation_witness :
    bsFixture.finish .reject = .error "accept_overallocated" ∧
    bsFixture.finishRun .reject = bsFixture ∧
    (∃ bs1, bsFixture.finish .accept = .ok bs1 ∧ bs1.is_complete = true ∧
      findBItem bs1.stock 1 = some { id := 1, part := 5, quantity := 49 }) ∧
    (∃ bs2, bsFixture.finish .trim = .ok bs2 ∧ bs2.is_complete = true ∧
      findBItem bs2.stock 1 = some { id := 1, part := 5, quantity := 50 }) := by
  have h := claim_C2_build_overallocation bsFixture (by decide) (by decide) (by decide)
    (by decide)
  refine ⟨h.1.1, h.1.2, ?_, ?_⟩
  · obtain ⟨bs1, hok, hcomp, hsub⟩ := h.2.1
    have h1 := hsub { id := 1, bom_item := 1, stock_item := 1, quantity := 51 } (by decide)
    exact ⟨bs1, hok, hcomp, by rw [h1]; decide⟩
  · obtain ⟨bs2, hok, hcomp, hsub⟩ := h.2.2
    have h1 := hsub { id := 1, bom_item := 1, stock_item := 1, quantity := 51 } (by decide)
    exact ⟨bs2, hok, hcomp, by rw [h1]; decide⟩

/-- C6: Line items can only be received against a purchase order in the
PLACED state: a receive request against a PENDING order is rejected and
creates no stock; against a PLACED order, receiving quantity q on a line
increases that line's received count by exactly q and creates a new stock
item of quantity q at the requested location — falling back to the
request's default location — with any supplied barcode assigned to the new
item. -/
theorem claim_C6_receive_state_machine :
    (∀ (st : ReceiveState) (req : ReceiveRequest), st.po.status = .PENDING →
      (∃ m, receive st req = .error m) ∧ receiveRun st req = st) ∧
    (∀ (st : ReceiveState) (defLoc : Option Nat) (it : ReceiveItem) (l : POLineItem),
      st.po.status = .PLACED → locOk st defLoc → itemCheck st it = none →
      st.po.lines.find? (fun x => decide (x.id = it.line_item)) = some l →
      st.po.lines.filter (fun x => decide (x.id = it.line_item)) = [l] →
      it.serial_numbers = none →
      ∃ st1, receive st { items := [it], location := defLoc } = .ok st1 ∧
        st1.po.receivedFor it.line_item = st.po.receivedFor it.line_item + it.quantity ∧
        st1.stock = st.stock ++
          [{ id := st.nextId, part := l.part, quantity := it.quantity,
             location := (match it.location with | some x => some x | none => defLoc),
             barcode_hash := it.barcode.getD "", batch := it.batch_code,
             serial := none }]) := by
  constructor
  · intro st req h
    refine receive_rejected st req (receiveCheck_ne_none_of_status st req ?_)
    rw [h]
    decide
  · intro st defLoc it l hst hloc hic hfind hfilt hser
    refine ⟨receiveLine defLoc st it, receive_single_ok st defLoc it hst hloc hic, ?_, ?_⟩
    · show ((((st.po.lines.map (fun x => if x.id = it.line_item then
          { x with received := x.received + it.quantity } else x)).filter
            (fun x => decide (x.id = it.line_item)))).map (fun x => x.received)).sum = _
      rw [receivedFor_map_update, hfilt]
      unfold POState.receivedFor
      rw [hfilt]
      simp
    · show (st.stock ++ (match it.serial_numbers with
        | none => _
        | some sns => _)) = _
      rw [hser, hfind]

/-- Closed witness for C6 at the receive fixture: receiving 50 units on line
1 with barcode B123 against the placed order creates a 50-unit stock item at
the default location 1, while the same request against the pending order is
rejected. -/
theorem claim_C6_receive_state_machine_witness :
    ((∃ m, receive { rsFixture with po := poFixture }
        { items := [{ line_item := 1, quantity := 50, barcode := some "B123" }],
          location := some 1 } = .error m) ∧
      receiveRun { rsFixture with po := poFixture }
        { items := [{ line_item := 1, quantity := 50, barcode := some "B123" }],
          location := some 1 } = { rsFixture with po := poFixture }) ∧
    (∃ st1, receive rsFixture
        { items := [{ line_item := 1, quantity := 50, barcode := some "B123" }],
          location := some 1 } = .ok st1 ∧
      st1.po.receivedFor 1 = rsFixture.po.receivedFor 1 + 50 ∧
      st1.stock = rsFixture.stock ++
        [{ id := 100, part := 5, quantity := 50, location := some 1,
           barcode_hash := "B123", batch := "", serial := none }]) := by
  constructor
  · exact claim_C6_receive_state_machine.1 _ _ (by decide)
  · obtain ⟨st1, hok, hrec, hstock⟩ := claim_C6_receive_state_machine.2 rsFixture (some 1)
      { line_item := 1, quantity := 50, barcode := some "B123" }
      { id := 1, order := 1, part := 5, quantity := 100, received := 0 }
      (by decide) (by decide) (by decide) (by decide) (by decide) (by decide)
    exact ⟨st1, hok, hrec, hstock⟩

/-- C10: When a purchase order line or build output is created with serial
numbers, the number of unique serial numbers must equal the quantity or the
request is rejected with nothing created; on success, quantity n with serial
numbers yields n distinct stock items (or build outputs) of quantity 1, each
carrying its serial and any batch code, whereas the same receipt without
serial numbers yields a single stock item of the full quantity. -/
theorem claim_C10_serial_numbers :
    (∀ (st : ReceiveState) (req : ReceiveRequest) (it : ReceiveItem) (sns : List Nat),
      it ∈ req.items → it.serial_numbers = some sns →
      (sns.dedup.length : ℤ) ≠ it.quantity →
      (∃ m, receive st req = .error m) ∧ receiveRun st req = st) ∧
    (∀ (st : ReceiveState) (defLoc : Option Nat) (it : ReceiveItem) (l : POLineItem)
        (sns : List Nat),
      st.po.status = .PLACED → locOk st defLoc → itemCheck st it = none →
      st.po.lines.find? (fun x => decide (x.id = it.line_item)) = some l →
      it.serial_numbers = some sns →
      ∃ st1, receive st { items := [it], location := defLoc } = .ok st1 ∧
        st1.stock = st.stock ++ sns.enum.map (fun p =>
          { id := st.nextId + p.1, part := l.part, quantity := 1,
            location := (match it.location with | some x => some x | none => defLoc),
            barcode_hash := it.barcode.getD "", batch := it.batch_code,
            serial := some p.2 }) ∧
        (sns.enum.map (fun p => st.nextId + p.1)).Nodup) ∧
    (∀ (os : OutputState) (q : ℤ) (sns : List Nat) (batch : String),
      (sns.dedup.length : ℤ) ≠ q →
      ∃ m, create_build_output os q (some sns) batch = .error m) ∧
    (∀ (os : OutputState) (q : ℤ) (sns : List Nat) (batch : String),
      0 < q → (sns.dedup.length : ℤ) = q → sns.Nodup →
      (∀ s ∈ sns, s ∉ os.usedSerials) →
      create_build_output os q (some sns) batch = .ok { os with
        outputs := os.outputs ++ sns.enum.map (fun p =>
          { id := os.nextId + p.1, quantity := 1, serial := some p.2, batch := batch }),
        usedSerials := os.usedSerials ++ sns,
        nextId := os.nextId + sns.length }) ∧
    (∀ (os : OutputState) (q : ℤ) (batch : String), 0 < q →
      create_build_output os q none batch = .ok { os with
        outputs := os.outputs ++
          [{ id := os.nextId, quantity := q, serial := none, batch := batch }],
        nextId := os.nextId + 1 }) := by
  refine ⟨?_, ?_, ?_, ?_, ?_⟩
  · intro st req it sns hmem hser hne
    refine receive_rejected st req (receiveCheck_ne_none_of_item st req it hmem ?_)
    intro hnone
    have hcs := (itemCheck_none_facts st it hnone).2.2.2.2.2
    unfold checkSerials at hcs
    by_cases hOk : serialsOk it
    · exact hne ((serialsOk_some it sns hser).mp hOk).1
    · rw [if_neg hOk] at hcs
      exact Option.noConfusion hcs
  · intro st defLoc it l sns hst hloc hic hfind hser
    refine ⟨receiveLine defLoc st it, receive_single_ok st defLoc it hst hloc hic, ?_,
      enum_shift_nodup st.nextId sns⟩
    show (st.stock ++ (match it.serial_numbers with
      | none => _
      | some sns => _)) = _
    rw [hser, hfind]
  · intro os q sns batch hne
    unfold create_build_output
    by_cases hq : q ≤ 0
    · rw [if_pos hq]
      exact ⟨_, rfl⟩
    · rw [if_neg hq]
      dsimp only
      rw [if_pos (fun hc => hne hc.1)]
      exact ⟨_, rfl⟩
  · intro os q sns batch hq hlen hnd hfresh
    unfold create_build_output
    rw [if_neg (not_le.mpr hq)]
    dsimp only
    rw [if_neg (not_not_intro ⟨hlen, hnd⟩)]
    rw [if_neg ?hany]
    case hany =>
      intro hc
      obtain ⟨x, hx, hpx⟩ := List.any_eq_true.mp hc
      exact hfresh x hx (of_decide_eq_true hpx)
  · intro os q batch hq
    unfold create_build_output
    rw [if_neg (not_le.mpr hq)]

/-- Closed witness for C10: receiving 6 serials for quantity 5 is rejected;
receiving serials 100 and 101 for quantity 2 creates two serialised items of
quantity 1; build outputs behave the same. -/
theorem claim_C10_serial_numbers_witness :
    (∃ m, receive rsFixture { items := [snBadItem], location := some 1 } = .error m) ∧
    (∃ st1, receive rsFixture { items := [snGoodItem], location := some 1 } = .ok st1 ∧
      st1.stock.length = rsFixture.stock.length + 2) ∧
    (∃ m, create_build_output osFixture 5 (some [1, 2, 3, 4, 5, 6]) "b" = .error m) ∧
    (∃ os1, create_build_output osFixture 2 (some [100, 101]) "abc" = .ok os1) ∧
    (∃ os1, create_build_output osFixture 5 none "b" = .ok os1) := by
  refine ⟨?_, ?_, ?_, ?_, ?_⟩
  · exact (claim_C10_serial_numbers.1 rsFixture _ snBadItem
      [1, 2, 3, 4, 5, 6] (by decide) (by decide) (by decide)).1
  · obtain ⟨st1, hok, hstock, _⟩ := claim_C10_serial_numbers.2.1 rsFixture (some 1)
      snGoodItem
      { id := 1, order := 1, part := 5, quantity := 100, received := 0 }
      [100, 101] (by decide) (by decide) (by decide) (by decide) (by decide)
    refine ⟨st1, hok, ?_⟩
    rw [hstock]
    decide
  · exact claim_C10_serial_numbers.2.2.1 osFixture 5 [1, 2, 3, 4, 5, 6] "b" (by decide)
  · exact ⟨_, claim_C10_serial_numbers.2.2.2.1 osFixture 2 [100, 101] "abc"
      (by decide) (by decide) (by decide) (by decide)⟩
  · exact ⟨_, claim_C10_serial_numbers.2.2.2.2 osFixture 5 "b" (by decide)⟩

/-- C7: Invalid receive and allocate requests are atomic: a request with an
empty or missing item list, an unknown line-item or location pk, an invalid
stock-status code, a line item belonging to a different order, a duplicate
or already-used barcode, a non-positive quantity, a quantity exceeding the
stock item's available quantity, or a shipment not associated with the
order, is rejected, and no new stock item, build item or allocation is
created — the state is unchanged. -/
theorem claim_C7_invalid_requests_atomic :
    (∀ (st : ReceiveState) (req : ReceiveRequest), req.items = [] →
      (∃ m, receive st req = .error m) ∧ receiveRun st req = st) ∧
    (∀ (st : ReceiveState) (req : ReceiveRequest) (it : ReceiveItem), it ∈ req.items →
      lineKnown st it.line_item = false →
      (∃ m, receive st req = .error m) ∧ receiveRun st req = st) ∧
    (∀ (st : ReceiveState) (req : ReceiveRequest) (it : ReceiveItem) (loc : Nat),
      it ∈ req.items → it.location = some loc → loc ∉ st.locations →
      (∃ m, receive st req = .error m) ∧ receiveRun st req = st) ∧
    (∀ (st : ReceiveState) (req : ReceiveRequest) (it : ReceiveItem), it ∈ req.items →
      it.status ∉ st.statusCodes →
      (∃ m, receive st req = .error m) ∧ receiveRun st req = st) ∧
    (∀ (st : ReceiveState) (req : ReceiveRequest),
      ¬ (req.items.filterMap (fun it => it.barcode)).Nodup →
      (∃ m, receive st req = .error m) ∧ receiveRun st req = st) ∧
    (∀ (st : ReceiveState) (req : ReceiveRequest) (it : ReceiveItem) (b : String),
      it ∈ req.items → it.barcode = some b →
      (st.stock.find? (fun s => decide (s.barcode_hash = b))).isSome = true →
      (∃ m, receive st req = .error m) ∧ receiveRun st req = st) ∧
    (∀ (st : ReceiveState) (req : ReceiveRequest) (it : ReceiveItem), it ∈ req.items →
      it.quantity ≤ 0 →
      (∃ m, receive st req = .error m) ∧ receiveRun st req = st) ∧
    (∀ (env : SOAllocEnv) (req : SOAllocRequest), req.items = [] →
      (∃ m, soAllocate env req = .error m) ∧ soAllocateRun env req = env.so) ∧
    (∀ (env : SOAllocEnv) (req : SOAllocRequest) (it : SOAllocItem), it ∈ req.items →
      it.quantity ≤ 0 →
      (∃ m, soAllocate env req = .error m) ∧ soAllocateRun env req = env.so) ∧
    (∀ (env : SOAllocEnv) (req : SOAllocRequest) (it : SOAllocItem) (s : StockItem),
      it ∈ req.items → findItem env.so.stock it.stock_item = some s →
      s.quantity - env.so.allocatedFromItem s.id < it.quantity →
      (∃ m, soAllocate env req = .error m) ∧ soAllocateRun env req = env.so) ∧
    (∀ (env : SOAllocEnv) (req : SOAllocRequest),
      (∀ sh ∈ env.so.shipments, sh.id ≠ req.shipment) →
      (∃ m, soAllocate env req = .error m) ∧ soAllocateRun env req = env.so) ∧
    (∀ (bs : BuildState) (items : List BuildAllocItem), items = [] →
      (∃ m, bs.allocateStock items = .error m) ∧ bs.allocateStockRun items = bs) ∧
    (∀ (bs : BuildState) (items : List BuildAllocItem) (it : BuildAllocItem),
      it ∈ items →
      (bs.bomItems.find? (fun bi => decide (bi.id = it.bom_item)) = none ∨
        bs.stock.find? (fun s => decide (s.id = it.stock_item)) = none) →
      (∃ m, bs.allocateStock items = .error m) ∧ bs.allocateStockRun items = bs) := by
  refine ⟨?_, ?_, ?_, ?_, ?_, ?_, ?_, ?_, ?_, ?_, ?_, ?_, ?_⟩
  · intro st req h
    exact receive_rejected st req (receiveCheck_ne_none_of_empty st req h)
  · intro st req it hmem hline
    refine receive_rejected st req (receiveCheck_ne_none_of_item st req it hmem ?_)
    intro hnone
    have := (itemCheck_none_facts st it hnone).1
    rw [hline] at this
    exact Bool.noConfusion this
  · intro st req it loc hmem hloc hnotin
    refine receive_rejected st req (receiveCheck_ne_none_of_item st req it hmem ?_)
    intro hnone
    have hl := (itemCheck_none_facts st it hnone).2.1
    rw [hloc] at hl
    exact hnotin hl
  · intro st req it hmem hstat
    refine receive_rejected st req (receiveCheck_ne_none_of_item st req it hmem ?_)
    intro hnone
    exact hstat (itemCheck_none_facts st it hnone).2.2.1
  · intro st req h
    exact receive_rejected st req (receiveCheck_ne_none_of_dup st req h)
  · intro st req it b hmem hb hfound
    refine receive_rejected st req (receiveCheck_ne_none_of_item st req it hmem ?_)
    intro hnone
    have hbc := (itemCheck_none_facts st it hnone).2.2.2.2.1
    rw [hb] at hbc
    have hbc2 : (st.stock.find? (fun s => decide (s.barcode_hash = b))).isSome = false := hbc
    rw [hfound] at hbc2
    exact Bool.noConfusion hbc2
  · intro st req it hmem hq
    refine receive_rejected st req (receiveCheck_ne_none_of_item st req it hmem ?_)
    intro hnone
    exact absurd (itemCheck_none_facts st it hnone).2.2.2.1 (not_lt.mpr hq)
  · intro env req h
    have herr : ∃ m, soAllocate env req = .error m := by
      unfold soAllocate
      rw [if_pos h]
      exact ⟨_, rfl⟩
    exact ⟨herr, soAllocate_of_error env req herr⟩
  · intro env req it hmem hq
    have herr : ∃ m, soAllocate env req = .error m := by
      refine soAllocate_isError_of_item env req it hmem ?_
      intro hnone
      exact absurd (soAllocCheck_none_facts env.so it hnone).2.2.1 (not_lt.mpr hq)
    exact ⟨herr, soAllocate_of_error env req herr⟩
  · intro env req it s hmem hfind hlt
    have herr : ∃ m, soAllocate env req = .error m := by
      refine soAllocate_isError_of_item env req it hmem ?_
      intro hnone
      have hle := (soAllocCheck_none_facts env.so it hnone).2.2.2
      rw [soAvail_of_find env.so it.stock_item s hfind] at hle
      exact absurd hlt (not_lt.mpr hle)
    exact ⟨herr, soAllocate_of_error env req herr⟩
  · intro env req hship
    have hfindnone : env.so.shipments.find? (fun sh => decide (sh.id = req.shipment)) = none :=
      List.find?_eq_none.mpr (fun x hx => by simpa using hship x hx)
    have herr : ∃ m, soAllocate env req = .error m := by
      unfold soAllocate
      split_ifs with h1 h2 h3
      · exact ⟨_, rfl⟩
      · rw [hfindnone] at h2
        simp at h2
      · exact ⟨_, rfl⟩
      · exact ⟨_, rfl⟩
    exact ⟨herr, soAllocate_of_error env req herr⟩
  · intro bs items h
    have herr : ∃ m, bs.allocateStock items = .error m := by
      unfold BuildState.allocateStock
      rw [if_pos h]
      exact ⟨_, rfl⟩
    exact ⟨herr, buildAlloc_of_error bs items herr⟩
  · intro bs items it hmem hor
    have herr : ∃ m, bs.allocateStock items = .error m := by
      refine buildAlloc_isError_of_item bs items it hmem ?_
      intro hnone
      have hfacts := buildAllocCheck_none_facts bs it hnone
      rcases hor with hb | hs
      · rw [hb] at hfacts
        simpa using hfacts.1
      · rw [hs] at hfacts
        simpa using hfacts.2
    exact ⟨herr, buildAlloc_of_error bs items herr⟩

/-- Closed witness for C7 exercising several of the invalid-request
conditions at the fixtures: empty item lists, an unknown line pk, duplicate
barcodes, a zero quantity, an exceeded available quantity, a foreign
shipment and an unknown BOM pk are all rejected with the state unchanged. -/
theorem claim_C7_invalid_requests_atomic_witness :
    ((∃ m, receive rsFixture { items := [], location := some 1 } = .error m) ∧
      receiveRun rsFixture { items := [], location := some 1 } = rsFixture) ∧
    ((∃ m, receive rsFixture { items := [{ line_item := 77, quantity := 5 }] } = .error m) ∧
      receiveRun rsFixture { items := [{ line_item := 77, quantity := 5 }] } = rsFixture) ∧
    ((∃ m, receive rsFixture
        { items := [{ line_item := 1, quantity := 5, barcode := some "X" },
                    { line_item := 1, quantity := 5, barcode := some "X" }],
          location := some 1 } = .error m)) ∧
    ((∃ m, soAllocate envFixture
        { items := [{ line_item := 1, stock_item := 1, quantity := 0 }],
          shipment := 1 } = .error m)) ∧
    ((∃ m, soAllocate envFixture
        { items := [{ line_item := 1, stock_item := 1, quantity := 250 }],
          shipment := 1 } = .error m)) ∧
    ((∃ m, soAllocate envFixture
        { items := [{ line_item := 1, stock_item := 1, quantity := 50 }],
          shipment := 9 } = .error m) ∧
      soAllocateRun envFixture
        { items := [{ line_item := 1, stock_item := 1, quantity := 50 }],
          shipment := 9 } = envFixture.so) ∧
    ((∃ m, bsFixture.allocateStock [] = .error m) ∧
      bsFixture.allocateStockRun [] = bsFixture) ∧
    ((∃ m, bsFixture.allocateStock
        [{ bom_item := 77, stock_item := 1, quantity := 5 }] = .error m)) := by
  refine ⟨?_, ?_, ?_, ?_, ?_, ?_, ?_, ?_⟩
  · exact claim_C7_invalid_requests_atomic.1 rsFixture _ (by decide)
  · exact claim_C7_invalid_requests_atomic.2.1 rsFixture _
      { line_item := 77, quantity := 5 } (by decide) (by decide)
  · exact (claim_C7_invalid_requests_atomic.2.2.2.2.1 rsFixture _ (by decide)).1
  · exact (claim_C7_invalid_requests_atomic.2.2.2.2.2.2.2.2.1 envFixture _
      { line_item := 1, stock_item := 1, quantity := 0 } (by decide) (by decide)).1
  · exact (claim_C7_invalid_requests_atomic.2.2.2.2.2.2.2.2.2.1 envFixture _
      { line_item := 1, stock_item := 1, quantity := 250 }
      { id := 1, part := 1, quantity := 100, sales_order := none }
      (by decide) (by decide) (by decide)).1
  · exact claim_C7_invalid_requests_atomic.2.2.2.2.2.2.2.2.2.2.1 envFixture _ (by decide)
  · exact claim_C7_invalid_requests_atomic.2.2.2.2.2.2.2.2.2.2.2.1 bsFixture _ (by decide)
  · exact (claim_C7_invalid_requests_atomic.2.2.2.2.2.2.2.2.2.2.2.2 bsFixture _
      { bom_item := 77, stock_item := 1, quantity := 5 } (by decide)
      (Or.inl (by decide))).1

end InvApp
